import Mathlib

/-!
Verification of the UI/UX-analysis edge function (plugin-figma-backend).

The development shallowly embeds the TypeScript sources:
  * `validation.ts` (src/unnamed/part_002): `validateJsonSchema`, `normalizeV6Data`
  * `schemas.ts`: the `ANALYSIS_SCHEMA` literal
  * `index.ts`: `AnalysisService.processAnalysis`, `RequestHandler`,
    `AnalysisService.buildPrompt`
  * `sse-utils.ts`: the SSE writer actions
  * the legacy non-streaming handler (src/unnamed/part_000)

JSON values are modelled by `JSValue`.  Numbers are rationals: every value
reaching the validator/normalizer comes from `JSON.parse`, which yields
finite doubles, and all comparisons performed by the code (against 0, 10,
3, array lengths) are exact on that range, so no floating-point behaviour
is lost.  JavaScript arrays may acquire named expando properties when the
normalizer assigns to them (`arr.cta = ...` is legal JS); the `arr`
constructor therefore carries a list of such named properties, which are
invisible to JSON serialisation and to the validator, exactly as in JS.
Strict-mode semantics apply (Deno ES modules): assigning a property of a
primitive throws a TypeError, modelled by `Except Unit`.
-/

inductive JSValue where
  | null : JSValue
  | bool : Bool → JSValue
  | num : ℚ → JSValue
  | str : String → JSValue
  | arr : List JSValue → List (String × JSValue) → JSValue
  | obj : List (String × JSValue) → JSValue

abbrev Fields := List (String × JSValue)

/-- First-occurrence association-list lookup (JS property read order). -/
def getA : Fields → String → Option JSValue
  | [], _ => none
  | (k, v) :: rest, key => if k = key then some v else getA rest key

/-- JS property write: replace the first binding of the key in place
(preserving property order), or append a fresh binding. -/
def setA : Fields → String → JSValue → Fields
  | [], key, v => [(key, v)]
  | (k, w) :: rest, key, v =>
    if k = key then (k, v) :: rest else (k, w) :: setA rest key v

/-- Property read on an arbitrary value: objects read their fields, arrays
read their expando properties; reading a named property of a primitive or
of `null`/`undefined`-like positions yields `undefined` (`none`).  (The
code only ever reads named properties behind optional chaining or on
values it has just tested, so the `null.x` throw is modelled at the
assignment sites instead, where the code actually performs it.) -/
def jsGet : JSValue → String → Option JSValue
  | .obj fs, key => getA fs key
  | .arr _ props, key => getA props key
  | _, _ => none

/-- Strict-mode property assignment: objects and arrays (expando) accept
it, primitives and `null` throw a TypeError. -/
def jsSet : JSValue → String → JSValue → Except Unit JSValue
  | .obj fs, key, v => .ok (.obj (setA fs key v))
  | .arr xs props, key, v => .ok (.arr xs (setA props key v))
  | _, _, _ => .error ()

/-- JS truthiness of a value (NaN is unreachable: `JSON.parse` output). -/
def jsTruthy : JSValue → Bool
  | .null => false
  | .bool b => b
  | .num q => q ≠ 0
  | .str s => s ≠ ""
  | .arr _ _ => true
  | .obj _ => true

/-- Truthiness of a possibly-absent (`undefined`) value. -/
def truthyO : Option JSValue → Bool
  | none => false
  | some v => jsTruthy v

/-- `{ ...data }`: spreading an object copies its fields, spreading an
array or string copies its indexed elements under string keys, spreading
any other primitive yields the empty object. -/
def jsSpread : JSValue → Fields
  | .obj fs => fs
  | .arr xs props => (xs.enum.map fun p => (toString p.1, p.2)) ++ props
  | .str s => s.data.enum.map fun p => (toString p.1, .str (String.mk [p.2]))
  | _ => []

/-- `.length` as read by the normalizer: real length for arrays and
strings, an ordinary property for objects, `undefined` otherwise. -/
def jsLengthProp : JSValue → Option JSValue
  | .arr xs _ => some (.num xs.length)
  | .str s => some (.num s.length)
  | .obj fs => getA fs "length"
  | _ => none

/-- `v.length === 0` (strict equality: only the number 0 matches). -/
def lengthEqZero (v : JSValue) : Bool :=
  match jsLengthProp v with
  | some (.num q) => q = 0
  | _ => false

/-- A value as produced by JS `ToNumber`: NaN, a signed infinity, or a
finite number (idealized as a rational, like every number of the
model). -/
inductive JSNum where
  | nan
  | inf (pos : Bool)
  | fin (q : ℚ)

/-- ES `StrWhiteSpaceChar`: the whitespace and line terminators stripped
by `StringToNumber` (the ASCII forms, NBSP, the Unicode space
separators, and the BOM). -/
def jsStrWhite (c : Char) : Bool :=
  c == ' ' || c == '\t' || c == '\n' || c == '\r' ||
  c == Char.ofNat 11 || c == Char.ofNat 12 || c == Char.ofNat 160 ||
  c == Char.ofNat 5760 || (8192 ≤ c.toNat && c.toNat ≤ 8202) ||
  c == Char.ofNat 8232 || c == Char.ofNat 8233 || c == Char.ofNat 8239 ||
  c == Char.ofNat 8287 || c == Char.ofNat 12288 || c == Char.ofNat 65279

def isDecDigit (c : Char) : Bool := '0' ≤ c && c ≤ '9'

def decDigitsVal (ds : List Char) : Nat :=
  ds.foldl (fun n c => 10 * n + (c.toNat - 48)) 0

/-- The optional `ExponentPart` closing a decimal literal: `some e` when
the remaining characters are empty or exactly `e`/`E`, an optional sign
and digits; `none` otherwise. -/
def parseExpPart : List Char → Option Int
  | [] => some 0
  | c :: rest =>
    if c == 'e' || c == 'E' then
      match rest with
      | '+' :: ds =>
        if !ds.isEmpty && ds.all isDecDigit then some (decDigitsVal ds) else none
      | '-' :: ds =>
        if !ds.isEmpty && ds.all isDecDigit then some (-(decDigitsVal ds : Int)) else none
      | ds =>
        if !ds.isEmpty && ds.all isDecDigit then some (decDigitsVal ds) else none
    else none

/-- `m × 10 ^ e` as a rational. -/
def scaleByTen (m : Int) (e : Int) : ℚ :=
  match e with
  | .ofNat k => ((m * ((10 ^ k : ℕ) : ℤ) : ℤ) : ℚ)
  | .negSucc k => mkRat m (10 ^ (k + 1))

/-- The value of `digits [. digits]` scaled by `10 ^ e`: reading the
integer and fraction digits as one integer shifts the exponent down by
the number of fraction digits. -/
def decValue (ip fp : List Char) (e : Int) : ℚ :=
  scaleByTen (decDigitsVal (ip ++ fp)) (e - fp.length)

/-- `StrUnsignedDecimalLiteral`: `Infinity`, `digits [. digits] [exp]` or
`. digits [exp]`; `none` when the characters are not exactly such a
literal. -/
def parseUnsignedDec (cs : List Char) : Option JSNum :=
  if cs = "Infinity".data then some (.inf true)
  else
    match cs.span isDecDigit with
    | ([], '.' :: rest2) =>
      match rest2.span isDecDigit with
      | ([], _) => none
      | (fp, rest3) => (parseExpPart rest3).map fun e => .fin (decValue [] fp e)
    | ([], _) => none
    | (ip, '.' :: rest2) =>
      match rest2.span isDecDigit with
      | (fp, rest3) => (parseExpPart rest3).map fun e => .fin (decValue ip fp e)
    | (ip, rest) => (parseExpPart rest).map fun e => .fin (decValue ip [] e)

def applySign (pos : Bool) : Option JSNum → JSNum
  | none => .nan
  | some .nan => .nan
  | some (.inf _) => .inf pos
  | some (.fin q) => .fin (if pos then q else -q)

def radixDigitVal (c : Char) : Option Nat :=
  if '0' ≤ c && c ≤ '9' then some (c.toNat - 48)
  else if 'a' ≤ c && c ≤ 'f' then some (c.toNat - 87)
  else if 'A' ≤ c && c ≤ 'F' then some (c.toNat - 55)
  else none

def parseRadix (radix : Nat) (ds : List Char) : Option Nat :=
  if ds.isEmpty then none
  else ds.foldl (fun acc c =>
    acc.bind fun n => (radixDigitVal c).bind fun d =>
      if d < radix then some (radix * n + d) else none) (some 0)

/-- ES `StringToNumber`: trim `StrWhiteSpace`; the empty remainder is 0;
otherwise a signed decimal literal (`Infinity` included) or an unsigned
`0x`/`0o`/`0b` integer; anything else is NaN. -/
def stringToNumber (s : String) : JSNum :=
  let cs := ((s.data.dropWhile jsStrWhite).reverse.dropWhile jsStrWhite).reverse
  match cs with
  | [] => .fin 0
  | '0' :: c :: rest =>
    if c == 'x' || c == 'X' then
      match parseRadix 16 rest with
      | some n => .fin n
      | none => .nan
    else if c == 'o' || c == 'O' then
      match parseRadix 8 rest with
      | some n => .fin n
      | none => .nan
    else if c == 'b' || c == 'B' then
      match parseRadix 2 rest with
      | some n => .fin n
      | none => .nan
    else applySign true (parseUnsignedDec ('0' :: c :: rest))
  | '+' :: rest => applySign true (parseUnsignedDec rest)
  | '-' :: rest => applySign false (parseUnsignedDec rest)
  | cs' => applySign true (parseUnsignedDec cs')

/-- `ToNumber(ToString(x))` for one element of an array joined by the
default `Array.prototype.toString`: `null` (and `undefined`) join as the
empty string (0), a number round-trips to itself
(`ToNumber(ToString(n)) = n`), a string joins verbatim, `true`/`false`
and plain objects stringify to non-numeric text (NaN), and a nested
array joins recursively — empty to `""` (0), a singleton to its
element's text, two or more elements always contain a comma (NaN). -/
def arrElemToNumber : JSValue → JSNum
  | .null => .fin 0
  | .num q => .fin q
  | .str s => stringToNumber s
  | .bool _ => .nan
  | .obj _ => .nan
  | .arr [] _ => .fin 0
  | .arr (y :: []) _ => arrElemToNumber y
  | .arr (_ :: _ :: _) _ => .nan

/-- `ToNumber(ToPrimitive(v))` as evaluated by the relational comparison
`v > 3`: a plain data object stringifies to `"[object Object]"` (NaN)
and an array through the default join (`JSON.parse` output carries no
overriding `valueOf`/`toString`). -/
def jsToNumber : JSValue → JSNum
  | .num q => .fin q
  | .null => .fin 0
  | .bool b => .fin (if b then 1 else 0)
  | .str s => stringToNumber s
  | .obj _ => .nan
  | .arr [] _ => .fin 0
  | .arr (y :: []) _ => arrElemToNumber y
  | .arr (_ :: _ :: _) _ => .nan

def gtThreeNum : JSNum → Bool
  | .nan => false
  | .inf pos => pos
  | .fin q => decide (3 < q)

/-- `v.length > 3` under the JS abstract relational comparison: the
`length` value (of any type) is coerced by `ToNumber ∘ ToPrimitive` and
compared; `undefined` and every non-numeric coercion give NaN, which
compares false. -/
def lengthGtThree (v : JSValue) : Bool :=
  match jsLengthProp v with
  | none => false
  | some L => gtThreeNum (jsToNumber L)

example : lengthGtThree (.obj [("length", .num 5)]) = true := rfl
example : lengthGtThree (.obj [("length", .str "10")]) = true := rfl
example : lengthGtThree (.obj [("length", .str " 0x10 ")]) = true := rfl
example : lengthGtThree (.obj [("length", .str "2")]) = false := rfl
example : lengthGtThree (.obj [("length", .str "10px")]) = false := rfl
example : lengthGtThree (.obj [("length", .arr [.num 7] [])]) = true := rfl
example : lengthGtThree (.obj [("length", .obj [])]) = false := rfl
example : lengthGtThree (.obj [("length", .str "-Infinity")]) = false := rfl
example : lengthGtThree (.obj [("length", .str "Infinity")]) = true := rfl
example : lengthGtThree (.obj [("length", .str "3.5e1")]) = true := rfl

/-- `v.slice(0, 3)`: defined for arrays (drops expando properties, as in
JS) and strings; calling `.slice` on anything else throws. -/
def jsSliceThree : JSValue → Except Unit JSValue
  | .arr xs _ => .ok (.arr (xs.take 3) [])
  | .str s => .ok (.str (String.mk (s.data.take 3)))
  | _ => .error ()

example : getA [("a", .num 1), ("b", .null)] "b" = some .null := rfl
example : setA [("a", .num 1)] "a" (.num 2) = [("a", .num 2)] := rfl
example : jsTruthy (.arr [] []) = true := rfl
example : truthyO (some (.str "")) = false := rfl

/-! ## Schema model and `validateJsonSchema` (validation.ts)

A schema node mirrors the JSON-Schema-like literals of `schemas.ts`.  The
`properties` map and the `items` slot are given by the mutual types
`SProps`/`SItems` (isomorphic to `List (String × Schema)` and
`Option Schema`) so that the family is mutual rather than nested and its
`sizeOf` is executable.  `otherS` stands for any node whose `type` tag
matches none of the dispatched branches: the source falls through
silently, emitting no error.  The recursion of the source's inner
`validate` is embedded with an explicit fuel that is structurally
consumed; `sizeOf schema` is always sufficient fuel because every
recursive call descends into a strict sub-schema, so the exported
`validateJsonSchema` agrees with the source's recursion on every input
(`goV_congr` below). -/

mutual
inductive Schema where
  | objectS (required : List String) (properties : SProps)
  | arrayS (minItems maxItems : Option Nat) (items : SItems)
  | stringS (enum : Option (List String))
  | numberS (minimum maximum : Option ℚ)
  | booleanS
  | unionS (types : List String)
  | otherS

inductive SProps where
  | nil
  | cons (key : String) (s : Schema) (rest : SProps)

inductive SItems where
  | noneI
  | someI (s : Schema)
end

/-- Convenience constructor for `properties` literals. -/
def propsOf : List (String × Schema) → SProps
  | [] => .nil
  | (k, s) :: rest => .cons k s (propsOf rest)

-- Executable structural size of a schema, used as validator fuel.
mutual
def sizeSchema : Schema → Nat
  | .objectS _ props => 1 + sizeProps props
  | .arrayS _ _ items => 1 + sizeItems items
  | .stringS _ => 1
  | .numberS _ _ => 1
  | .booleanS => 1
  | .unionS _ => 1
  | .otherS => 1

def sizeProps : SProps → Nat
  | .nil => 1
  | .cons _ s rest => 1 + sizeSchema s + sizeProps rest

def sizeItems : SItems → Nat
  | .noneI => 1
  | .someI s => 1 + sizeSchema s
end

structure VErr where
  message : String
  path : String
  deriving DecidableEq, Repr

structure ValidationResult where
  valid : Bool
  errors : List VErr
  deriving DecidableEq, Repr

/-- `objSchema.properties?.[key]`. -/
def lookupS : SProps → String → Option Schema
  | .nil, _ => none
  | .cons k s rest, key => if k = key then some s else lookupS rest key

/-- `Object.entries(obj).forEach`: each value key that also has a property
schema is validated recursively; others are silently skipped. -/
def goEntries (f : JSValue → Schema → String → List VErr) :
    List (String × JSValue) → SProps → String → List VErr
  | [], _, _ => []
  | (k, x) :: rest, props, path =>
    (match lookupS props k with
     | some fs => f x fs (path ++ "." ++ k)
     | none => []) ++ goEntries f rest props path

/-- `obj.forEach((item, index) => validate(item, items, path[index]))`. -/
def goItems (f : JSValue → Schema → String → List VErr) :
    List JSValue → Schema → String → Nat → List VErr
  | [], _, _, _ => []
  | x :: rest, s, path, i =>
    f x s (path ++ "[" ++ toString i ++ "]") ++ goItems f rest s path (i + 1)

/-- The recursive `validate` of `validateJsonSchema`, fuelled.  Branches
and error messages follow the source line by line.  Numeric `<`/`>`
comparisons are modelled for numeric operands only: the only values the
code compares are JSON numbers against the literal bounds.  `minItems`
and `maxItems` are guarded by JS truthiness (`minItems && ...`), so a
declared bound of `0` is skipped. -/
def goV : Nat → JSValue → Schema → String → List VErr
  | 0, _, _, _ => []
  | n + 1, v, s, path =>
    match s with
    | .objectS req props =>
      match v with
      | .obj fs =>
        (req.filterMap fun field =>
          if (getA fs field).isSome then none
          else some ⟨s!"Missing required field: {field}", path ++ "." ++ field⟩)
        ++ goEntries (goV n) fs props path
      | _ => [⟨s!"Expected object at {path}", path⟩]
    | .arrayS minI maxI items =>
      match v with
      | .arr xs _ =>
        (match minI with
         | some m =>
           if m ≠ 0 && decide (xs.length < m) then
             [⟨s!"Array must have at least {m} items", path⟩]
           else []
         | none => [])
        ++ (match maxI with
            | some m =>
              if m ≠ 0 && decide (m < xs.length) then
                [⟨s!"Array must have at most {m} items", path⟩]
              else []
            | none => [])
        ++ (match items with
            | .someI isch => goItems (goV n) xs isch path 0
            | .noneI => [])
      | _ => [⟨s!"Expected array at {path}", path⟩]
    | .stringS enum =>
      (match v with
       | .str _ => []
       | _ => [⟨s!"Expected string at {path}", path⟩])
      ++ (match enum with
          | some es =>
            if (match v with | .str s => es.contains s | _ => false) then []
            else [⟨"Value must be one of: " ++ String.intercalate ", " es, path⟩]
          | none => [])
    | .numberS minI maxI =>
      (match v with
       | .num _ => []
       | _ => [⟨s!"Expected number at {path}", path⟩])
      ++ (match minI with
          | some m =>
            if (match v with | .num q => decide (q < m) | _ => false) then
              [⟨s!"Value must be >= {m}", path⟩]
            else []
          | none => [])
      ++ (match maxI with
          | some m =>
            if (match v with | .num q => decide (m < q) | _ => false) then
              [⟨s!"Value must be <= {m}", path⟩]
            else []
          | none => [])
    | .booleanS =>
      match v with
      | .bool _ => []
      | _ => [⟨s!"Expected boolean at {path}", path⟩]
    | .unionS types =>
      if types.any (fun t =>
          match t, v with
          | "null", .null => true
          | "string", .str _ => true
          | "number", .num _ => true
          | "boolean", .bool _ => true
          | "array", .arr _ _ => true
          | "object", .obj _ => true
          | _, _ => false) then []
      else [⟨"Expected one of types: " ++ String.intercalate ", " types, path⟩]
    | .otherS => []

/-- The inner `validate(value, schema, path)` of the source. -/
def validateAt (v : JSValue) (s : Schema) (path : String) : List VErr :=
  goV (sizeSchema s) v s path

def validateJsonSchema (data : JSValue) (schema : Schema) : ValidationResult :=
  let errors := validateAt data schema "root"
  ⟨errors.length == 0, errors⟩

theorem lookupS_size : ∀ (props : SProps) (k : String) (s : Schema),
    lookupS props k = some s → sizeSchema s < sizeProps props
  | .nil, k, s, h => by simp [lookupS] at h
  | .cons k' s' rest, k, s, h => by
    by_cases hk : k' = k
    · simp [lookupS, hk] at h
      subst h
      simp only [sizeProps]
      omega
    · simp [lookupS, hk] at h
      have := lookupS_size rest k s h
      simp only [sizeProps]
      omega

theorem sizeSchema_pos (s : Schema) : 0 < sizeSchema s := by
  cases s <;> simp only [sizeSchema] <;> omega

theorem goEntries_congr {f g : JSValue → Schema → String → List VErr}
    (entries : List (String × JSValue)) (props : SProps) (path : String)
    (h : ∀ x s p, (∃ k, lookupS props k = some s) → f x s p = g x s p) :
    goEntries f entries props path = goEntries g entries props path := by
  induction entries with
  | nil => rfl
  | cons e rest ih =>
    obtain ⟨k, x⟩ := e
    simp only [goEntries, ih]
    cases hl : lookupS props k with
    | none => rfl
    | some s => simp only [h x s (path ++ "." ++ k) ⟨k, hl⟩]

theorem goItems_congr {f g : JSValue → Schema → String → List VErr}
    (xs : List JSValue) (s : Schema) (path : String) (i : Nat)
    (h : ∀ x p, f x s p = g x s p) :
    goItems f xs s path i = goItems g xs s path i := by
  induction xs generalizing i with
  | nil => rfl
  | cons x rest ih => simp only [goItems]; rw [h, ih]

/-- Fuel irrelevance: any fuel at least `sizeOf s` computes the same error
list, so `validateAt` is exactly the source's recursion. -/
theorem goV_congr (s : Schema) (n m : Nat) (hn : sizeSchema s ≤ n) (hm : sizeSchema s ≤ m)
    (v : JSValue) (path : String) : goV n v s path = goV m v s path := by
  have hpos := sizeSchema_pos s
  obtain ⟨n', rfl⟩ : ∃ n', n = n' + 1 := ⟨n - 1, by omega⟩
  obtain ⟨m', rfl⟩ : ∃ m', m = m' + 1 := ⟨m - 1, by omega⟩
  cases s with
  | objectS req props =>
    cases v with
    | obj fs =>
      simp only [goV]
      congr 1
      refine goEntries_congr fs props path ?_
      intro x s' p hs'
      obtain ⟨k, hk⟩ := hs'
      have hlt := lookupS_size props k s' hk
      have hprops : sizeProps props < sizeSchema (Schema.objectS req props) := by
        simp only [sizeSchema]; omega
      exact goV_congr s' n' m' (by omega) (by omega) x p
    | null => rfl
    | bool b => rfl
    | num q => rfl
    | str st => rfl
    | arr xs props' => rfl
  | arrayS minI maxI items =>
    cases v with
    | arr xs props' =>
      simp only [goV]
      congr 1
      cases items with
      | noneI => rfl
      | someI isch =>
        have hlt : sizeSchema isch < sizeSchema (Schema.arrayS minI maxI (.someI isch)) := by
          simp only [sizeSchema, sizeItems]; omega
        exact goItems_congr xs isch path 0 fun x p =>
          goV_congr isch n' m' (by omega) (by omega) x p
    | null => rfl
    | bool b => rfl
    | num q => rfl
    | str st => rfl
    | obj fs => rfl
  | stringS enum => cases v <;> rfl
  | numberS minI maxI => cases v <;> rfl
  | booleanS => cases v <;> rfl
  | unionS types => cases v <;> rfl
  | otherS => rfl
termination_by sizeSchema s

/-! ## `ANALYSIS_SCHEMA` (schemas.ts)

The V6 schema literal, transcribed node for node.  `description` fields
are prose ignored by the validator and are not represented;
`additionalProperties: false` at the root is likewise never inspected by
`validateJsonSchema` and has no representation in `Schema`. -/

def mudancaItemSchema : Schema :=
  .objectS ["elemento", "depois", "porque"] (propsOf
    [("elemento", .stringS none),
     ("antes", .unionS ["string", "null"]),
     ("depois", .stringS none),
     ("porque", .stringS none)])

def acessibilidadeItemSchema : Schema :=
  .objectS ["elemento", "depois", "porque"] (propsOf
    [("elemento", .stringS none),
     ("wcag", .unionS ["string", "null"]),
     ("antes", .unionS ["string", "null"]),
     ("depois", .stringS none),
     ("porque", .stringS none)])

def ANALYSIS_SCHEMA : Schema :=
  .objectS
    ["schemaVersion", "pontuacaoGeral", "jobToBeDone", "tomDeVoz",
     "experiencia", "prioridadesTop3"]
    (propsOf
      [("schemaVersion", .stringS (some ["v6"])),
       ("pontuacaoGeral", .numberS (some 0) (some 10)),
       ("objetivoInferido", .stringS none),
       ("jobToBeDone", .objectS ["placeholderExemplo", "avaliacao"] (propsOf
         [("placeholderExemplo", .stringS none),
          ("avaliacao", .objectS ["atinge", "justificativa"] (propsOf
            [("atinge", .booleanS),
             ("justificativa", .stringS none),
             ("sugestoes", .arrayS none none (.someI (.stringS none)))]))])),
       ("tomDeVoz", .objectS ["nota"] (propsOf
         [("nota", .numberS (some 0) (some 10)),
          ("manter", .arrayS none none (.someI (.objectS ["elemento", "motivo"] (propsOf
            [("elemento", .stringS none),
             ("motivo", .stringS none)])))),
          ("mudar", .arrayS none none (.someI mudancaItemSchema))])),
       ("experiencia", .objectS ["nota"] (propsOf
         [("nota", .numberS (some 0) (some 10)),
          ("usabilidade", .arrayS none none (.someI mudancaItemSchema)),
          ("visual", .arrayS none none (.someI mudancaItemSchema)),
          ("acessibilidade", .arrayS none none (.someI acessibilidadeItemSchema)),
          ("cta", .objectS ["clareza", "recomendacao"] (propsOf
            [("principal", .unionS ["string", "null"]),
             ("clareza", .numberS (some 0) (some 10)),
             ("recomendacao", .stringS none)]))])),
       ("prioridadesTop3", .arrayS (some 1) (some 3) (.someI
         (.objectS ["resumo", "motivo"] (propsOf
           [("resumo", .stringS none),
            ("motivo", .stringS none)]))))])

/-! ## `normalizeV6Data` (validation.ts)

The normalizer mutates a shallow copy of its input; the embedding passes
the state explicitly and threads the strict-mode TypeError through
`Except Unit`.  Each block below mirrors one commented block of the
source, in source order. -/

def defaultAvaliacao : JSValue :=
  .obj [("atinge", .bool false), ("justificativa", .str ""), ("sugestoes", .arr [] [])]

def defaultJobToBeDone : JSValue :=
  .obj [("placeholderExemplo", .str ""), ("avaliacao", defaultAvaliacao)]

def defaultTomDeVoz : JSValue :=
  .obj [("nota", .num 0), ("manter", .arr [] []), ("mudar", .arr [] [])]

def defaultCta : JSValue :=
  .obj [("principal", .null), ("clareza", .num 0), ("recomendacao", .str "")]

def defaultExperiencia : JSValue :=
  .obj [("nota", .num 0), ("usabilidade", .arr [] []), ("visual", .arr [] []),
        ("acessibilidade", .arr [] []), ("cta", defaultCta)]

def placeholderPrioridade : JSValue :=
  .obj [("resumo", .str "Prioridade não identificada"),
        ("motivo", .str "Análise incompleta ou dados insuficientes")]

/-- `typeof x === 'number' && 0 <= x && x <= 10` for a possibly-absent
value: the negation of the source's reset condition
`typeof x !== 'number' || x < 0 || x > 10`. -/
def numInRange : Option JSValue → Bool
  | some (.num q) => decide (0 ≤ q ∧ q ≤ 10)
  | _ => false

/-- One `if (!v.key) v.key = w` defaulting step. -/
def ensureField (v : JSValue) (key : String) (w : JSValue) : Except Unit JSValue :=
  if truthyO (jsGet v key) then pure v else jsSet v key w

/-- The `jobToBeDone` else-branch (fields `placeholderExemplo`,
`avaliacao`, `avaliacao.sugestoes`). -/
def normJtbd (j : JSValue) : Except Unit JSValue := do
  let j ← ensureField j "placeholderExemplo" (.str "")
  match jsGet j "avaliacao" with
  | some a =>
    if jsTruthy a then do
      let a ← ensureField a "sugestoes" (.arr [] [])
      jsSet j "avaliacao" a
    else jsSet j "avaliacao" defaultAvaliacao
  | none => jsSet j "avaliacao" defaultAvaliacao

/-- The `tomDeVoz` else-branch (fields `manter`, `mudar`). -/
def normTom (t : JSValue) : Except Unit JSValue := do
  let t ← ensureField t "manter" (.arr [] [])
  ensureField t "mudar" (.arr [] [])

/-- The `experiencia` else-branch (fields `usabilidade`, `visual`,
`acessibilidade`, `cta`). -/
def normExp (e : JSValue) : Except Unit JSValue := do
  let e ← ensureField e "usabilidade" (.arr [] [])
  let e ← ensureField e "visual" (.arr [] [])
  let e ← ensureField e "acessibilidade" (.arr [] [])
  ensureField e "cta" defaultCta

/-- One top-level section block: `if (!normalized.K) normalized.K = dflt
else { ...sub... }`. -/
def normSection (fs : Fields) (key : String) (dflt : JSValue)
    (sub : JSValue → Except Unit JSValue) : Except Unit Fields := do
  match getA fs key with
  | some v =>
    if jsTruthy v then do
      let v' ← sub v
      pure (setA fs key v')
    else pure (setA fs key dflt)
  | none => pure (setA fs key dflt)

/-- One numeric range-reset block for a nested field `sec.sub`:
`if (!(typeof normalized.sec?.sub === 'number' && in range))
normalized.sec.sub = 0`.  When the section is absent or primitive the
assignment throws (property assignment on `undefined` or on a
primitive). -/
def fixNested (fs : Fields) (sec sub : String) : Except Unit Fields := do
  let v? := (getA fs sec).bind (jsGet · sub)
  if numInRange v? then pure fs
  else
    match getA fs sec with
    | some s => do
      let s' ← jsSet s sub (.num 0)
      pure (setA fs sec s')
    | none => .error ()

/-- The doubly nested reset
`if (!(typeof normalized.experiencia?.cta?.clareza === 'number' && in
range)) normalized.experiencia.cta.clareza = 0`.  The unguarded
assignment chain throws when `experiencia` is primitive or its `cta` is
absent, `null` or primitive. -/
def fixClareza (fs : Fields) : Except Unit Fields := do
  let v? := ((getA fs "experiencia").bind (jsGet · "cta")).bind (jsGet · "clareza")
  if numInRange v? then pure fs
  else
    match getA fs "experiencia" with
    | some e =>
      match jsGet e "cta" with
      | some c => do
        let c' ← jsSet c "clareza" (.num 0)
        let e' ← jsSet e "cta" c'
        pure (setA fs "experiencia" e')
      | none => .error ()
    | none => .error ()

/-- `if (!normalized.objetivoInferido) normalized.objetivoInferido = ''`. -/
def objetivoFix (fs : Fields) : Fields :=
  if truthyO (getA fs "objetivoInferido") then fs
  else setA fs "objetivoInferido" (.str "")

/-- `if (!normalized.prioridadesTop3 || normalized.prioridadesTop3.length
=== 0)`: replace by the single placeholder entry. -/
def prioFloor (fs : Fields) : Fields :=
  if truthyO (getA fs "prioridadesTop3")
      && !(match getA fs "prioridadesTop3" with
           | some v => lengthEqZero v
           | none => false) then fs
  else setA fs "prioridadesTop3" (.arr [placeholderPrioridade] [])

/-- `if (normalized.prioridadesTop3.length > 3) ... .slice(0, 3)`. -/
def prioCeil (fs : Fields) : Except Unit Fields :=
  match getA fs "prioridadesTop3" with
  | some v =>
    if lengthGtThree v then do
      let v' ← jsSliceThree v
      pure (setA fs "prioridadesTop3" v')
    else pure fs
  | none => pure fs

/-- The top-level `pontuacaoGeral` range reset. -/
def pontFix (fs : Fields) : Fields :=
  if numInRange (getA fs "pontuacaoGeral") then fs
  else setA fs "pontuacaoGeral" (.num 0)

/-- `normalizeV6Data`, source order: schema-version tag, `objetivoInferido`
default, the three section blocks, the `prioridadesTop3` floor/ceiling,
then the four numeric range resets. -/
def normCore (fs0 : Fields) : Except Unit Fields := do
  let fs := setA fs0 "schemaVersion" (.str "v6")
  let fs := objetivoFix fs
  let fs ← normSection fs "jobToBeDone" defaultJobToBeDone normJtbd
  let fs ← normSection fs "tomDeVoz" defaultTomDeVoz normTom
  let fs ← normSection fs "experiencia" defaultExperiencia normExp
  let fs := prioFloor fs
  let fs ← prioCeil fs
  let fs := pontFix fs
  let fs ← fixNested fs "tomDeVoz" "nota"
  let fs ← fixNested fs "experiencia" "nota"
  fixClareza fs

def normalizeV6Data (data : JSValue) : Except Unit JSValue :=
  (normCore (jsSpread data)).map .obj

/-! ## Property-access lemmas -/

theorem getA_setA_same (fs : Fields) (k : String) (v : JSValue) :
    getA (setA fs k v) k = some v := by
  induction fs with
  | nil => simp [getA, setA]
  | cons p rest ih =>
    obtain ⟨k', w⟩ := p
    by_cases hk : k' = k
    · simp [getA, setA, hk]
    · simp [getA, setA, hk, ih]

theorem getA_setA_other (fs : Fields) (k k' : String) (v : JSValue) (h : k' ≠ k) :
    getA (setA fs k v) k' = getA fs k' := by
  have hne : ¬ (k = k') := fun hh => h hh.symm
  induction fs with
  | nil => simp [getA, setA, hne]
  | cons p rest ih =>
    obtain ⟨k'', w⟩ := p
    by_cases hk : k'' = k
    · have hne' : ¬ (k'' = k') := by rw [hk]; exact hne
      simp [getA, setA, hk, hne', hne]
    · by_cases hk' : k'' = k'
      · simp [getA, setA, hk, hk', h]
      · simp [getA, setA, hk, hk', ih]

theorem setA_id_of_getA (fs : Fields) (k : String) (v : JSValue)
    (h : getA fs k = some v) : setA fs k v = fs := by
  induction fs with
  | nil => simp [getA] at h
  | cons p rest ih =>
    obtain ⟨k', w⟩ := p
    by_cases hk : k' = k
    · simp [getA, hk] at h
      simp [setA, hk, h]
    · simp [getA, hk] at h
      simp [setA, hk, ih h]

theorem jsSet_obj (fs : Fields) (k : String) (v : JSValue) :
    jsSet (.obj fs) k v = .ok (.obj (setA fs k v)) := rfl

theorem jsSet_arr (xs : List JSValue) (props : Fields) (k : String) (v : JSValue) :
    jsSet (.arr xs props) k v = .ok (.arr xs (setA props k v)) := rfl

/-- A successful property assignment leaves a value on which the same
property reads back the assigned value. -/
theorem jsGet_jsSet_same {v : JSValue} {k : String} {w v' : JSValue}
    (h : jsSet v k w = .ok v') : jsGet v' k = some w := by
  cases v <;> simp [jsSet] at h <;> subst h <;> simp [jsGet, getA_setA_same]

theorem jsGet_jsSet_other {v : JSValue} {k : String} {w v' : JSValue} (k' : String)
    (h : jsSet v k w = .ok v') (hk : k' ≠ k) : jsGet v' k' = jsGet v k' := by
  cases v <;> simp [jsSet] at h <;> subst h <;> simp [jsGet, getA_setA_other _ _ _ _ hk]

theorem jsSet_id_of_jsGet {v : JSValue} {k : String} {w : JSValue}
    (h : jsGet v k = some w) : jsSet v k w = .ok v := by
  cases v <;> simp [jsGet] at h <;> simp [jsSet, setA_id_of_getA _ _ _ h]

/-- Assignment succeeds exactly on objects and arrays. -/
theorem jsSet_isOk (v : JSValue) (k : String) (w : JSValue) :
    (∃ v', jsSet v k w = .ok v') ↔ (∃ fs, v = .obj fs) ∨ (∃ xs ps, v = .arr xs ps) := by
  cases v <;> simp [jsSet]

/-- A successful assignment preserves the object/array constructor. -/
theorem jsSet_shape {v : JSValue} {k : String} {w v' : JSValue}
    (h : jsSet v k w = .ok v') :
    ((∃ fs, v = .obj fs) → ∃ gs, v' = .obj gs) ∧
    ((∃ xs ps, v = .arr xs ps) → ∃ xs qs, v' = .arr xs qs) := by
  cases v <;> simp [jsSet] at h <;> subst h <;> simp

/-! ## SSE events and the orchestrator (index.ts, sse-utils.ts)

`sendSSEMessage` writes one `data:` frame per call and never interleaves;
a request's observable output is therefore the sequence of writer actions
(`write` of a typed event, or `close`).  The model assumes a connected
consumer (writes succeed); a disconnected consumer can only truncate the
action sequence, and `closeWriter` swallows close failures either way.
External collaborators (Supabase rows, the OpenAI call, `JSON.parse` of
the returned text) are supplied as an environment, one outcome per await
point of `processAnalysis`. -/

/-- The `ErrorResponse` payload of `sse-utils.ts` / `types.ts`.
`timestamp` records only whether the field is attached (its value is
wall-clock time, outside the embedding). -/
structure ErrorResponse where
  error : String
  message : Option String
  code : Option String
  details : Option (List VErr)
  schema_version : Option String
  timestamp : Bool
  deriving DecidableEq, Repr

inductive SSEEvent where
  | progress (step message : String)
  | result (v : JSValue)
  | errorEvent (e : ErrorResponse)

inductive WAction where
  | write (ev : SSEEvent)
  | close

/-- `sendErrorResponse`: one error frame, then `closeWriter`. -/
def sendErrorActions (e : ErrorResponse) : List WAction :=
  [.write (.errorEvent e), .close]

def progressAction (step message : String) : List WAction :=
  [.write (.progress step message)]

/-- The catch-all payload of `processAnalysis`:
`{error: "Erro na análise", message, timestamp}`. -/
def genericAnalysisError (msg : String) : ErrorResponse :=
  ⟨"Erro na análise", some msg, none, none, none, true⟩

/-- The schema-violation payload:
`{error, code: "LLM_SCHEMA_VIOLATION", details: {errors}, schema_version: "v6"}`. -/
def schemaViolationError (errs : List VErr) : ErrorResponse :=
  ⟨"Erro de validação do schema", none, some "LLM_SCHEMA_VIOLATION", some errs,
   some "v6", false⟩

/-- The message of the strict-mode TypeError thrown inside
`normalizeV6Data`; its exact wording is engine-supplied and irrelevant to
every property proved here. -/
def typeErrorMessage : String := "TypeError"

/-- Outcome of `openai.createCompletion` followed by
`extractAnalysisResult`: either the provider call rejects with a message,
or a content string is extracted (`''` when the envelope was empty, per
`content || ''`). -/
inductive CompletionOutcome where
  | throws (msg : String)
  | content (s : String)

/-- Outcome of `JSON.parse(analysisResult)` — parsing itself is outside
the embedding, so the environment supplies either the thrown message or
the parsed document. -/
inductive ParseOutcome where
  | fails (msg : String)
  | parsed (d : JSValue)

/-- The external world of one `processAnalysis` run.  `aiConfig`/`brand`
are `none` when the row fetch errors or returns nothing (the code treats
`error || !data` uniformly). -/
structure OrchEnv where
  aiConfig : Option Unit
  brand : Option Unit
  completion : CompletionOutcome
  parse : ParseOutcome

/-- `AnalysisService.processAnalysis`: the writer actions it performs, in
order.  Each early `throw` is routed through the method's own catch,
which emits the generic analysis error; the schema-violation branch emits
its structured payload and returns. -/
def processAnalysis (env : OrchEnv) : List WAction :=
  progressAction "configuracao" "Carregando configurações..." ++
  match env.aiConfig with
  | none => sendErrorActions (genericAnalysisError "Configurações da IA não encontradas")
  | some _ =>
    progressAction "manual" "Carregando manual da marca..." ++
    match env.brand with
    | none => sendErrorActions (genericAnalysisError "Manual da marca não encontrado")
    | some _ =>
      progressAction "prompt" "Preparando análise..." ++
      progressAction "api" "Analisando com IA..." ++
      match env.completion with
      | .throws msg => sendErrorActions (genericAnalysisError msg)
      | .content s =>
        progressAction "processando" "Processando resultado..." ++
        if s = "" then
          sendErrorActions (genericAnalysisError "Resposta vazia da IA")
        else
          match env.parse with
          | .fails msg => sendErrorActions (genericAnalysisError msg)
          | .parsed d =>
            match normalizeV6Data d with
            | .error _ => sendErrorActions (genericAnalysisError typeErrorMessage)
            | .ok nd =>
              if (validateJsonSchema nd ANALYSIS_SCHEMA).valid then [.write (.result nd)]
              else sendErrorActions
                (schemaViolationError (validateJsonSchema nd ANALYSIS_SCHEMA).errors)

/-- The missing-required-parameters payload of
`RequestHandler.processRequest`. -/
def missingParamsError : ErrorResponse :=
  ⟨"Parâmetros obrigatórios ausentes",
   some "Os campos 'context', 'jtbd' e 'image' são obrigatórios",
   none, none, none, false⟩

/-- The outer-catch payload (`error.message || 'Erro desconhecido'`). -/
def internalError (msg : String) : ErrorResponse :=
  ⟨"Erro interno do servidor",
   some (if msg = "" then "Erro desconhecido" else msg),
   none, none, none, true⟩

/-- The parsed request body (`RequestBody`); fields are arbitrary JSON or
absent, exactly as `await req.json()` can produce them. -/
structure RequestBody where
  context : Option JSValue
  jtbd : Option JSValue
  image : Option JSValue
  imageType : Option JSValue

/-- The external world of one `RequestHandler.processRequest` run:
`req.json()` may throw, then the orchestrator environment. -/
structure ReqEnv where
  body : Except String RequestBody
  orch : OrchEnv

/-- `RequestHandler.processRequest`: initial progress frame, body
validation, delegation to `processAnalysis`, and the `finally` close
(`closeWriter` is idempotent: a second close after `sendErrorResponse`
writes nothing). -/
def processRequest (env : ReqEnv) : List WAction :=
  progressAction "inicializando" "Iniciando análise..." ++
  (match env.body with
   | .error msg => sendErrorActions (internalError msg)
   | .ok b =>
     if !(truthyO b.context && truthyO b.jtbd && truthyO b.image) then
       sendErrorActions missingParamsError
     else processAnalysis env.orch) ++
  [.close]

/-- The response `RequestHandler.handleRequest` hands back, by method:
CORS preflight, a 405 JSON error, or the SSE stream whose writer actions
are produced asynchronously by `processRequest`. -/
inductive HandlerOutcome where
  | corsOk
  | jsonError (status : Nat) (error message : String)
  | sse (actions : List WAction)

def handleRequest (method : String) (env : ReqEnv) : HandlerOutcome :=
  if method = "OPTIONS" then .corsOk
  else if method ≠ "POST" then
    .jsonError 405 "Método não permitido" "Esta API aceita apenas requisições POST"
  else .sse (processRequest env)

/-! ## `buildPrompt` (index.ts) and the legacy handler (part_000)

`String.prototype.replace` with a string pattern replaces the first
occurrence only, after running the replacement text through
`GetSubstitution`, which expands the `$`-sequences `$$`, `$&`, `` $` ``
and `$'`; a string pattern has no capture groups, so every other
`$`-sequence stays literal. -/

/-- `GetSubstitution` for a string pattern: in the replacement text,
`$$` yields `$`, `$&` the matched pattern, `$` + backquote the part of
the searched string before the match, `$'` the part after it; a lone
trailing `$` and every other `$`-sequence (`$` + digit, `$<`) are
literal because a string pattern has no captures. -/
def getSubstitution (matched before after : List Char) : List Char → List Char
  | [] => []
  | c :: rest =>
    if c = '$' then
      match rest with
      | [] => ['$']
      | c2 :: rest2 =>
        if c2 = '$' then '$' :: getSubstitution matched before after rest2
        else if c2 = '&' then matched ++ getSubstitution matched before after rest2
        else if c2 = Char.ofNat 96 then
          before ++ getSubstitution matched before after rest2
        else if c2 = Char.ofNat 39 then
          after ++ getSubstitution matched before after rest2
        else '$' :: c2 :: getSubstitution matched before after rest2
    else c :: getSubstitution matched before after rest

/-- First-occurrence replacement: scan for the pattern, carrying the
already-scanned prefix `pre` (the before-the-match context that
`GetSubstitution` hands to a `$`-backquote sequence). -/
def replFirstAux (pat rep : List Char) : List Char → List Char → List Char
  | [], _ => []
  | c :: rest, pre =>
    if pat.isPrefixOf (c :: rest) then
      getSubstitution pat pre ((c :: rest).drop pat.length) rep
        ++ (c :: rest).drop pat.length
    else c :: replFirstAux pat rep rest (pre ++ [c])

def replFirst (s pat rep : List Char) : List Char := replFirstAux pat rep s []

/-- `s.replace(pat, rep)` for a string pattern: first occurrence only,
with `GetSubstitution` applied to the replacement.  An empty pattern
matches at the start with empty matched/before context, as in JS; the
patterns used by `buildPrompt` are the four placeholder tokens, never
empty. -/
def replaceOnce (s pat rep : String) : String :=
  if pat.data = [] then ⟨getSubstitution [] [] s.data rep.data ++ s.data⟩
  else ⟨replFirst s.data pat.data rep.data⟩

/-- `AnalysisService.buildPrompt`: four chained `.replace` calls on the
template, in source order. -/
def buildPrompt (promptTemplate context jtbd voicePrinciples rules : String) : String :=
  replaceOnce (replaceOnce (replaceOnce (replaceOnce
    promptTemplate "{{CONTEXT}}" context) "{{JTBD}}" jtbd)
    "{{VOICE_PRINCIPLES}}" voicePrinciples) "{{RULES}}" rules

/-- Body of the legacy non-streaming handler's request, as parsed. -/
structure LegacyBody where
  context : Option JSValue
  image : Option JSValue

/-- The legacy handler up to and including body validation; everything
after a successful validation (config fetch, prompt, model call,
plain-JSON result) is abstracted as `proceeds`, which the claims do not
inspect.  No stream exists anywhere in this handler: every outcome is a
single JSON response. -/
inductive LegacyOutcome where
  | corsOk
  | jsonError (status : Nat) (error : String)
  | proceeds

def legacyHandle (method : String) (body : Except String LegacyBody) : LegacyOutcome :=
  if method = "OPTIONS" then .corsOk
  else if method ≠ "POST" then .jsonError 405 "Método não permitido"
  else
    match body with
    | .error _ => .jsonError 500 "Erro interno do servidor"
    | .ok b =>
      if !(truthyO b.context && truthyO b.image) then
        .jsonError 400 "Parâmetros obrigatórios ausentes"
      else .proceeds

/-! ## Validator unfolding and path lemmas -/

theorem validateAt_objectS (fs : Fields) (req : List String) (props : SProps)
    (path : String) :
    validateAt (.obj fs) (.objectS req props) path =
      (req.filterMap fun field =>
        if (getA fs field).isSome then none
        else some ⟨s!"Missing required field: {field}", path ++ "." ++ field⟩)
      ++ goEntries (fun x s p => validateAt x s p) fs props path := by
  have hs : sizeSchema (.objectS req props) = sizeProps props + 1 := by
    simp only [sizeSchema]; omega
  unfold validateAt
  rw [hs]
  simp only [goV]
  congr 1
  refine goEntries_congr fs props path ?_
  intro x s p hs'
  obtain ⟨k, hk⟩ := hs'
  have hlt := lookupS_size props k s hk
  exact goV_congr s (sizeProps props) (sizeSchema s) (by omega) (by omega) x p

theorem validateAt_arrayS (xs : List JSValue) (props : Fields)
    (minI maxI : Option Nat) (items : SItems) (path : String) :
    validateAt (.arr xs props) (.arrayS minI maxI items) path =
      (match minI with
       | some m =>
         if m ≠ 0 && decide (xs.length < m) then
           [⟨s!"Array must have at least {m} items", path⟩]
         else []
       | none => [])
      ++ (match maxI with
          | some m =>
            if m ≠ 0 && decide (m < xs.length) then
              [⟨s!"Array must have at most {m} items", path⟩]
            else []
          | none => [])
      ++ (match items with
          | .someI isch => goItems (fun x s p => validateAt x s p) xs isch path 0
          | .noneI => []) := by
  have hs : sizeSchema (.arrayS minI maxI items) = sizeItems items + 1 := by
    simp only [sizeSchema]; omega
  unfold validateAt
  rw [hs]
  simp only [goV]
  congr 1
  cases items with
  | noneI => rfl
  | someI isch =>
    have hlt : sizeSchema isch < sizeItems (.someI isch) := by
      simp only [sizeItems]; omega
    exact goItems_congr xs isch path 0 fun x p =>
      goV_congr isch (sizeItems (.someI isch)) (sizeSchema isch) (by omega) (by omega) x p

theorem goEntries_path_le {f : JSValue → Schema → String → List VErr}
    (hf : ∀ x s p e, e ∈ f x s p → p.length ≤ e.path.length)
    (entries : List (String × JSValue)) (props : SProps) (path : String)
    (e : VErr) (he : e ∈ goEntries f entries props path) :
    path.length ≤ e.path.length := by
  induction entries with
  | nil => simp [goEntries] at he
  | cons p' rest ih =>
    obtain ⟨k, x⟩ := p'
    simp only [goEntries, List.mem_append] at he
    rcases he with he | he
    · cases hl : lookupS props k with
      | none => rw [hl] at he; simp at he
      | some s =>
        rw [hl] at he
        have h1 := hf x s (path ++ "." ++ k) e he
        have h2 : (path ++ "." ++ k).length = path.length + ".".length + k.length := by
          simp [String.length_append]
        omega
    · exact ih he

theorem goItems_path_le {f : JSValue → Schema → String → List VErr}
    (hf : ∀ x s p e, e ∈ f x s p → p.length ≤ e.path.length)
    (xs : List JSValue) (s : Schema) (path : String) (i : Nat)
    (e : VErr) (he : e ∈ goItems f xs s path i) :
    path.length < e.path.length := by
  induction xs generalizing i with
  | nil => simp [goItems] at he
  | cons x rest ih =>
    simp only [goItems, List.mem_append] at he
    rcases he with he | he
    · have h1 := hf x s (path ++ "[" ++ toString i ++ "]") e he
      have h2 : (path ++ "[" ++ toString i ++ "]").length
          = path.length + "[".length + (toString i).length + "]".length := by
        simp [String.length_append]
      have h3 : "[".length = 1 := rfl
      omega
    · exact ih (i + 1) he

/-- Every reported error's path extends the path the validator was called
with (child paths append `.key` or `[index]`). -/
theorem goV_path_le (n : Nat) :
    ∀ (v : JSValue) (s : Schema) (path : String) (e : VErr),
      e ∈ goV n v s path → path.length ≤ e.path.length := by
  induction n with
  | zero => intro v s path e he; simp [goV] at he
  | succ n ih =>
    intro v s path e he
    have hsingle : ∀ (msg : String), e ∈ [VErr.mk msg path] → path.length ≤ e.path.length := by
      intro msg hm
      simp at hm
      subst hm
      simp
    cases s with
    | objectS req props =>
      cases v with
      | obj fs =>
        simp only [goV, List.mem_append] at he
        rcases he with he | he
        · simp only [List.mem_filterMap] at he
          obtain ⟨field, _, hfe⟩ := he
          split at hfe
          · simp at hfe
          · simp only [Option.some.injEq] at hfe
            subst hfe
            have h2 : (path ++ "." ++ field).length
                = path.length + ".".length + field.length := by
              simp [String.length_append]
            simp only []
            omega
        · exact goEntries_path_le ih fs props path e he
      | null => exact hsingle _ he
      | bool b => exact hsingle _ he
      | num q => exact hsingle _ he
      | str st => exact hsingle _ he
      | arr xs ps => exact hsingle _ he
    | arrayS minI maxI items =>
      cases v with
      | arr xs ps =>
        simp only [goV, List.mem_append] at he
        rcases he with (he | he) | he
        · split at he
          · split at he
            · simp at he; subst he; simp
            · simp at he
          · simp at he
        · split at he
          · split at he
            · simp at he; subst he; simp
            · simp at he
          · simp at he
        · split at he
          · have := goItems_path_le ih xs _ path 0 e he
            omega
          · simp at he
      | null => exact hsingle _ he
      | bool b => exact hsingle _ he
      | num q => exact hsingle _ he
      | str st => exact hsingle _ he
      | obj fs => exact hsingle _ he
    | stringS enum =>
      simp only [goV, List.mem_append] at he
      rcases he with he | he
      · split at he
        · simp at he
        · exact hsingle _ he
      · split at he
        · split at he
          · simp at he
          · simp at he; subst he; simp
        · simp at he
    | numberS minI maxI =>
      simp only [goV, List.mem_append] at he
      rcases he with (he | he) | he
      · split at he
        · simp at he
        · exact hsingle _ he
      · split at he
        · split at he
          · simp at he; subst he; simp
          · simp at he
        · simp at he
      · split at he
        · split at he
          · simp at he; subst he; simp
          · simp at he
        · simp at he
    | booleanS =>
      simp only [goV] at he
      split at he
      · simp at he
      · exact hsingle _ he
    | unionS types =>
      simp only [goV] at he
      split at he
      · simp at he
      · simp at he; subst he; simp
    | otherS => simp [goV] at he

theorem validateAt_path_le {v : JSValue} {s : Schema} {path : String} {e : VErr}
    (he : e ∈ validateAt v s path) : path.length ≤ e.path.length :=
  goV_path_le (sizeSchema s) v s path e he

/-! ## Claims about the validator (C7, C8) -/

/-- The "at least" and "at most" array-bound messages never coincide
(they differ at character 19), for any bounds. -/
theorem minItems_msg_ne_maxItems_msg (a b : Nat) :
    (s!"Array must have at least {a} items" : String) ≠
      s!"Array must have at most {b} items" := by
  intro h
  have hd := congrArg String.data h
  simp only [String.data_append] at hd
  have h25 : (toString "Array must have at least ").data.length = 25 := by decide
  have h24 : (toString "Array must have at most ").data.length = 24 := by decide
  have hlen1 : (19 : Nat) <
      ((toString "Array must have at least ").data ++ (toString a).data).length := by
    simp [List.length_append, h25]
    omega
  have hlen2 : (19 : Nat) <
      ((toString "Array must have at most ").data ++ (toString b).data).length := by
    simp [List.length_append, h24]
    omega
  have h1 := congrArg (fun l => l[19]?) hd
  simp only at h1
  rw [List.getElem?_append_left hlen1, List.getElem?_append_left hlen2,
      List.getElem?_append_left
        (by omega : (19 : Nat) < (toString "Array must have at least ").data.length),
      List.getElem?_append_left
        (by omega : (19 : Nat) < (toString "Array must have at most ").data.length)] at h1
  have e1 : (toString "Array must have at least ").data[19]? = some 'l' := by decide
  have e2 : (toString "Array must have at most ").data[19]? = some 'm' := by decide
  rw [e1, e2] at h1
  simp at h1

/-- Claim C8: validating an object against an object schema reports, for
every required key absent from the value, an error whose path is the
parent path extended with that key. -/
theorem C8_missing_required_field_path (fs : Fields) (req : List String)
    (props : SProps) (path : String) (k : String)
    (hreq : k ∈ req) (habs : getA fs k = none) :
    VErr.mk s!"Missing required field: {k}" (path ++ "." ++ k)
      ∈ validateAt (.obj fs) (.objectS req props) path := by
  rw [validateAt_objectS]
  refine List.mem_append_left _ ?_
  refine List.mem_filterMap.mpr ⟨k, hreq, ?_⟩
  simp [habs]

/-- Claim C8 witness: a document missing `pontuacaoGeral` yields an error
at exactly `root.pontuacaoGeral` (the spec's own example), on the real
`ANALYSIS_SCHEMA`. -/
theorem C8_missing_required_field_path_witness :
    VErr.mk "Missing required field: pontuacaoGeral" "root.pontuacaoGeral"
      ∈ (validateJsonSchema (.obj []) ANALYSIS_SCHEMA).errors :=
  C8_missing_required_field_path [] _ _ "root" "pontuacaoGeral"
    (by decide) rfl

/-- Claim C7: an array shorter than a declared `minItems` bound yields the
single "at least" error at the array's own path, followed by the (possible)
"at most" error and the per-element validations of the elements that are
present — and the "at least" error occurs exactly once in the report. -/
theorem C7_minItems_single_error (xs : List JSValue) (props : Fields)
    (maxI : Option Nat) (items : SItems) (path : String) (N : Nat)
    (h : xs.length < N) :
    validateAt (.arr xs props) (.arrayS (some N) maxI items) path =
      VErr.mk s!"Array must have at least {N} items" path ::
        ((match maxI with
          | some m =>
            if m ≠ 0 && decide (m < xs.length) then
              [VErr.mk s!"Array must have at most {m} items" path]
            else []
          | none => [])
         ++ (match items with
             | .someI isch => goItems (fun x s p => validateAt x s p) xs isch path 0
             | .noneI => []))
    ∧ (validateAt (.arr xs props) (.arrayS (some N) maxI items) path).count
        (VErr.mk s!"Array must have at least {N} items" path) = 1 := by
  have hN : N ≠ 0 := by omega
  have hmain : validateAt (.arr xs props) (.arrayS (some N) maxI items) path =
      VErr.mk s!"Array must have at least {N} items" path ::
        ((match maxI with
          | some m =>
            if m ≠ 0 && decide (m < xs.length) then
              [VErr.mk s!"Array must have at most {m} items" path]
            else []
          | none => [])
         ++ (match items with
             | .someI isch => goItems (fun x s p => validateAt x s p) xs isch path 0
             | .noneI => [])) := by
    rw [validateAt_arrayS]
    have hc : (N ≠ 0 && decide (xs.length < N)) = true := by
      simp [hN, h]
    simp only [hc, if_true]
    rfl
  refine ⟨hmain, ?_⟩
  rw [hmain]
  rw [List.count_cons_self]
  have hzero : (((match maxI with
      | some m =>
        if m ≠ 0 && decide (m < xs.length) then
          [VErr.mk s!"Array must have at most {m} items" path]
        else []
      | none => [])
     ++ (match items with
         | .someI isch => goItems (fun x s p => validateAt x s p) xs isch path 0
         | .noneI => [])).count
        (VErr.mk s!"Array must have at least {N} items" path)) = 0 := by
    rw [List.count_eq_zero]
    intro hmem
    rcases List.mem_append.mp hmem with hm | hm
    · split at hm
      · split at hm
        · simp at hm
          exact minItems_msg_ne_maxItems_msg _ _ hm
        · simp at hm
      · simp at hm
    · split at hm
      · have hlt := goItems_path_le (fun x s p e he => validateAt_path_le he)
          xs _ path 0 _ hm
        simp at hlt
      · simp at hm
  omega

/-! ## Claim C2: request validation vs. the stream -/

/-- Claim C2 counterexample: a POST whose body lacks `image` does NOT get
a 4xx JSON response — the SSE stream is opened and an `inicializando`
progress event is written before the body is even validated; the error is
then delivered as a stream event (followed by `sendErrorResponse`'s close
and the `finally` close). -/
theorem C2_counterexample :
    handleRequest "POST"
      ⟨.ok ⟨some (.str "uma tela"), some (.str "converter"), none, none⟩,
       ⟨some (), some (), .content "x", .parsed (.obj [])⟩⟩ =
      .sse [.write (.progress "inicializando" "Iniciando análise..."),
            .write (.errorEvent missingParamsError), .close, .close] := rfl

/-- Claim C2 (amended): only the legacy handler returns an immediate 400
JSON error for a missing required field; the streaming handler opens the
stream, writes one `inicializando` progress event, then one terminal
missing-parameters error event and closes — never a 4xx, never a result. -/
theorem C2_missing_field_behaviour :
    (∀ (b : RequestBody) (orch : OrchEnv),
      (truthyO b.context && truthyO b.jtbd && truthyO b.image) = false →
      handleRequest "POST" ⟨.ok b, orch⟩ =
        .sse [.write (.progress "inicializando" "Iniciando análise..."),
              .write (.errorEvent missingParamsError), .close, .close])
    ∧ (∀ (b : LegacyBody),
      (truthyO b.context && truthyO b.image) = false →
      legacyHandle "POST" (.ok b) = .jsonError 400 "Parâmetros obrigatórios ausentes") := by
  constructor
  · intro b orch hmiss
    simp [handleRequest, processRequest, hmiss, progressAction, sendErrorActions]
  · intro b hmiss
    simp [legacyHandle, hmiss]

/-- Claim C2 witness: the amended behaviour at a concrete body missing
`image`. -/
theorem C2_missing_field_behaviour_witness :
    handleRequest "POST"
      ⟨.ok ⟨some (.str "c"), some (.str "j"), none, none⟩,
       ⟨none, none, .content "", .fails "x"⟩⟩ =
      .sse [.write (.progress "inicializando" "Iniciando análise..."),
            .write (.errorEvent missingParamsError), .close, .close]
    ∧ legacyHandle "POST" (.ok ⟨some (.str "c"), none⟩) =
        .jsonError 400 "Parâmetros obrigatórios ausentes" :=
  ⟨C2_missing_field_behaviour.1 ⟨some (.str "c"), some (.str "j"), none, none⟩
      ⟨none, none, .content "", .fails "x"⟩ (by decide),
   C2_missing_field_behaviour.2 ⟨some (.str "c"), none⟩ (by decide)⟩

/-! ## Claim C9: placeholder substitution -/

/-- A replacement text without `$` passes through `GetSubstitution`
verbatim. -/
theorem getSubstitution_no_dollar {rep : List Char} (m b a : List Char)
    (h : Char.ofNat 36 ∉ rep) : getSubstitution m b a rep = rep := by
  induction rep with
  | nil => rfl
  | cons c rest ih =>
    have hc : c ≠ '$' := fun hh => h (hh ▸ List.mem_cons_self c rest)
    have hrest : Char.ofNat 36 ∉ rest := fun hh => h (List.mem_cons_of_mem c hh)
    rw [getSubstitution.eq_def]
    simp only [if_neg hc]
    rw [ih hrest]

/-- `replFirstAux` leaves a string without an occurrence untouched. -/
theorem replFirstAux_of_not_infix (pat rep : List Char) :
    ∀ s pre : List Char, ¬ List.IsInfix pat s → replFirstAux pat rep s pre = s := by
  intro s
  induction s with
  | nil => exact fun _ _ => rfl
  | cons c s' ih =>
    intro pre h
    by_cases hp : pat.isPrefixOf (c :: s')
    · exfalso
      apply h
      obtain ⟨t, ht⟩ := List.isPrefixOf_iff_prefix.mp hp
      exact ⟨[], t, by simp [ht]⟩
    · have hs' : ¬ List.IsInfix pat s' := fun hinf => h (List.infix_cons hinf)
      simp [replFirstAux, hp, ih _ hs']

/-- `replFirstAux` rewrites exactly the first occurrence: the string
splits as `a ++ pat ++ b` with `a` minimal, and the result splices the
substituted replacement — whose before-context is the scanned prefix
`pre ++ a` — between `a` and `b`. -/
theorem replFirstAux_of_infix (pat rep : List Char) (hpat : pat ≠ []) :
    ∀ s pre : List Char, List.IsInfix pat s →
    ∃ a b : List Char, s = a ++ pat ++ b ∧
      replFirstAux pat rep s pre = a ++ getSubstitution pat (pre ++ a) b rep ++ b ∧
      ∀ a' b', s = a' ++ pat ++ b' → a.length ≤ a'.length := by
  intro s
  induction s with
  | nil =>
    intro pre h
    exfalso
    obtain ⟨a, b, hab⟩ := h
    simp at hab
    exact hpat hab.2.1
  | cons c s' ih =>
    intro pre h
    by_cases hp : pat.isPrefixOf (c :: s')
    · obtain ⟨t, ht⟩ := List.isPrefixOf_iff_prefix.mp hp
      refine ⟨[], t, by simp [ht.symm], ?_, by simp⟩
      simp only [replFirstAux, hp, if_true]
      rw [← ht, List.drop_left]
      simp
    · have hinf' : List.IsInfix pat s' := by
        obtain ⟨a, b, hab⟩ := h
        cases a with
        | nil =>
          exfalso
          apply hp
          refine List.isPrefixOf_iff_prefix.mpr ⟨b, ?_⟩
          simpa using hab
        | cons c' a' =>
          simp at hab
          exact ⟨a', b, by rw [List.append_assoc]; exact hab.2⟩
      obtain ⟨a, b, hsplit, heq, hmin⟩ := ih (pre ++ [c]) hinf'
      refine ⟨c :: a, b, by simp [hsplit], ?_, ?_⟩
      · simp only [replFirstAux, hp, if_false]
        rw [heq]
        simp
      · intro a' b' hsp
        cases a' with
        | nil =>
          exfalso
          apply hp
          refine List.isPrefixOf_iff_prefix.mpr ⟨b', ?_⟩
          simpa using hsp.symm
        | cons c'' a'' =>
          simp at hsp
          have h2 : s' = a'' ++ pat ++ b' := by
            rw [List.append_assoc]
            exact hsp.2
          have := hmin a'' b' h2
          simp
          omega

/-- `replFirst` leaves a string without an occurrence untouched. -/
theorem replFirst_of_not_infix (s pat rep : List Char)
    (h : ¬ List.IsInfix pat s) : replFirst s pat rep = s :=
  replFirstAux_of_not_infix pat rep s [] h

/-- `replFirst` replaces exactly the first occurrence: the string splits
as `a ++ pat ++ b` with `a` minimal, and the result is `a`, then the
`GetSubstitution`-processed replacement (before-context `a`, after-context
`b`), then `b`. -/
theorem replFirst_of_infix (s pat rep : List Char) (hpat : pat ≠ [])
    (h : List.IsInfix pat s) :
    ∃ a b : List Char, s = a ++ pat ++ b ∧
      replFirst s pat rep = a ++ getSubstitution pat a b rep ++ b ∧
      ∀ a' b', s = a' ++ pat ++ b' → a.length ≤ a'.length := by
  obtain ⟨a, b, hsplit, heq, hmin⟩ := replFirstAux_of_infix pat rep hpat s [] h
  exact ⟨a, b, hsplit, by simpa using heq, hmin⟩

/-- Claim C9 counterexample: when a supplied value itself contains a later
placeholder token, the template's own first occurrence of that token is
NOT the one replaced.  Here the claim predicts `"A{{JTBD}}BjC"` (the
template's `{{JTBD}}` replaced by `"j"`), but the code produces
`"AjB{{JTBD}}C"`. -/
theorem C9_counterexample :
    buildPrompt "A{{CONTEXT}}B{{JTBD}}C" "{{JTBD}}" "j" "v" "r" = "AjB{{JTBD}}C"
    ∧ "AjB{{JTBD}}C" ≠ "A{{JTBD}}BjC" := ⟨rfl, by decide⟩

/-- Claim C9 (amended): `buildPrompt` chains four first-occurrence
replacements (CONTEXT, JTBD, VOICE_PRINCIPLES, RULES, in that order), each
applied to the previous step's output; each step leaves a string without
the token verbatim (no error), and otherwise rewrites exactly the first
occurrence of the token in its input with the `GetSubstitution`-processed
supplied value (`$$`, `$&`, `$` + backquote and `$'` expand; a value
without `$` is spliced verbatim), leaving every other character —
including later duplicate occurrences and unknown `{{...}}` tokens —
unchanged. -/
theorem C9_replace_first_occurrence :
    (∀ t c j v r, buildPrompt t c j v r =
      replaceOnce (replaceOnce (replaceOnce (replaceOnce t "{{CONTEXT}}" c)
        "{{JTBD}}" j) "{{VOICE_PRINCIPLES}}" v) "{{RULES}}" r)
    ∧ (∀ s pat rep : String, pat.data ≠ [] → ¬ List.IsInfix pat.data s.data →
        replaceOnce s pat rep = s)
    ∧ (∀ s pat rep : String, pat.data ≠ [] → List.IsInfix pat.data s.data →
        ∃ a b : List Char, s.data = a ++ pat.data ++ b ∧
          (replaceOnce s pat rep).data = a ++ getSubstitution pat.data a b rep.data ++ b ∧
          ∀ a' b', s.data = a' ++ pat.data ++ b' → a.length ≤ a'.length)
    ∧ (∀ (m b a rep : List Char), Char.ofNat 36 ∉ rep →
        getSubstitution m b a rep = rep) := by
  refine ⟨fun t c j v r => rfl, ?_, ?_, fun m b a rep h => getSubstitution_no_dollar m b a h⟩
  · intro s pat rep hpat hinf
    unfold replaceOnce
    rw [if_neg hpat]
    have := replFirst_of_not_infix s.data pat.data rep.data hinf
    cases s
    simp only [this]
  · intro s pat rep hpat hinf
    obtain ⟨a, b, hsplit, heq, hmin⟩ := replFirst_of_infix s.data pat.data rep.data hpat hinf
    refine ⟨a, b, hsplit, ?_, hmin⟩
    unfold replaceOnce
    rw [if_neg hpat]
    exact heq

/-- Claim C9 witness: a duplicated token has only its first occurrence
replaced; a token-free string is untouched; a replacement containing
`$$` is substituted, not spliced verbatim; a `$`-free replacement passes
through `GetSubstitution` unchanged. -/
theorem C9_replace_first_occurrence_witness :
    replaceOnce "x{{RULES}}y{{RULES}}z" "{{RULES}}" "R" = "xRy{{RULES}}z"
    ∧ replaceOnce "no tokens here" "{{RULES}}" "R" = "no tokens here"
    ∧ (∃ a b : List Char, "p{{JTBD}}q".data = a ++ "{{JTBD}}".data ++ b ∧
        (replaceOnce "p{{JTBD}}q" "{{JTBD}}" "$$9").data =
          a ++ getSubstitution "{{JTBD}}".data a b "$$9".data ++ b ∧
        ∀ a' b', "p{{JTBD}}q".data = a' ++ "{{JTBD}}".data ++ b' →
          a.length ≤ a'.length)
    ∧ replaceOnce "p{{JTBD}}q" "{{JTBD}}" "$$9" = "p$9q"
    ∧ getSubstitution "{{RULES}}".data [] [] "plain".data = "plain".data := by
  refine ⟨?_, ?_, ?_, ?_, ?_⟩
  · rfl
  · exact C9_replace_first_occurrence.2.1 "no tokens here" "{{RULES}}" "R"
      (by decide) (by decide)
  · exact C9_replace_first_occurrence.2.2.1 "p{{JTBD}}q" "{{JTBD}}" "$$9"
      (by decide) (by decide)
  · rfl
  · exact C9_replace_first_occurrence.2.2.2 "{{RULES}}".data [] [] "plain".data
      (by decide)

/-! ## Claim C5: stream discipline, and Claim C1: schema violations -/

/-- The events actually written, in order (closes are not events). -/
def writesOf : List WAction → List SSEEvent :=
  List.filterMap fun a => match a with | .write e => some e | .close => none

def isProgress : SSEEvent → Bool
  | .progress _ _ => true
  | _ => false

def isTerminal : SSEEvent → Bool
  | .result _ => true
  | .errorEvent _ => true
  | .progress _ _ => false

/-- `(Progress)* (Result | Error)`: zero or more progress events followed
by exactly one terminal event, and nothing after it. -/
def progressesThenOneTerminal : List SSEEvent → Bool
  | [] => false
  | e :: rest =>
    if isProgress e then progressesThenOneTerminal rest
    else isTerminal e && rest.isEmpty

/-- No write action occurs after the first close action. -/
def noWriteAfterClose : List WAction → Bool
  | [] => true
  | .close :: rest => rest.all fun a => match a with | .write _ => false | .close => true
  | .write _ :: rest => noWriteAfterClose rest

/-- Claim C5: whatever the external world does, every request's stream
carries zero or more progress events, then exactly one terminal result or
error event, and no event of any kind is written after the stream is
closed (the double close after `sendErrorResponse` + `finally` writes
nothing). -/
theorem C5_stream_discipline (env : ReqEnv) :
    progressesThenOneTerminal (writesOf (processRequest env)) = true ∧
    noWriteAfterClose (processRequest env) = true := by
  obtain ⟨body, orch⟩ := env
  cases body with
  | error msg => exact ⟨rfl, rfl⟩
  | ok b =>
    cases hcond : (truthyO b.context && truthyO b.jtbd && truthyO b.image) with
    | false =>
      have h1 : processRequest ⟨.ok b, orch⟩ =
          [.write (.progress "inicializando" "Iniciando análise..."),
           .write (.errorEvent missingParamsError), .close, .close] := by
        simp only [processRequest]
        rw [hcond]
        rfl
      rw [h1]
      exact ⟨rfl, rfl⟩
    | true =>
      obtain ⟨ai, br, comp, par⟩ := orch
      have h1 : processRequest ⟨.ok b, ⟨ai, br, comp, par⟩⟩ =
          progressAction "inicializando" "Iniciando análise..."
            ++ processAnalysis ⟨ai, br, comp, par⟩ ++ [.close] := by
        simp only [processRequest]
        rw [hcond]
        rfl
      rw [h1]
      cases ai with
      | none => exact ⟨rfl, rfl⟩
      | some u =>
        cases br with
        | none => exact ⟨rfl, rfl⟩
        | some u' =>
          cases comp with
          | throws msg => exact ⟨rfl, rfl⟩
          | content s =>
            by_cases hs : s = ""
            · subst hs
              exact ⟨rfl, rfl⟩
            · cases par with
              | fails msg =>
                have h2 : processAnalysis ⟨some u, some u', .content s, .fails msg⟩ =
                    progressAction "configuracao" "Carregando configurações..." ++
                    (progressAction "manual" "Carregando manual da marca..." ++
                    (progressAction "prompt" "Preparando análise..." ++
                    progressAction "api" "Analisando com IA..." ++
                    (progressAction "processando" "Processando resultado..." ++
                    sendErrorActions (genericAnalysisError msg)))) := by
                  simp only [processAnalysis]
                  rw [if_neg hs]
                rw [h2]
                exact ⟨rfl, rfl⟩
              | parsed d =>
                cases hn : normalizeV6Data d with
                | error e =>
                  have h2 : processAnalysis ⟨some u, some u', .content s, .parsed d⟩ =
                      progressAction "configuracao" "Carregando configurações..." ++
                      (progressAction "manual" "Carregando manual da marca..." ++
                      (progressAction "prompt" "Preparando análise..." ++
                      progressAction "api" "Analisando com IA..." ++
                      (progressAction "processando" "Processando resultado..." ++
                      sendErrorActions (genericAnalysisError typeErrorMessage)))) := by
                    simp only [processAnalysis]
                    rw [if_neg hs, hn]
                  rw [h2]
                  exact ⟨rfl, rfl⟩
                | ok nd =>
                  by_cases hv : (validateJsonSchema nd ANALYSIS_SCHEMA).valid = true
                  · have h2 : processAnalysis ⟨some u, some u', .content s, .parsed d⟩ =
                        progressAction "configuracao" "Carregando configurações..." ++
                        (progressAction "manual" "Carregando manual da marca..." ++
                        (progressAction "prompt" "Preparando análise..." ++
                        progressAction "api" "Analisando com IA..." ++
                        (progressAction "processando" "Processando resultado..." ++
                        [.write (.result nd)]))) := by
                      simp only [processAnalysis]
                      rw [if_neg hs, hn]
                      dsimp only
                      rw [if_pos hv]
                    rw [h2]
                    exact ⟨rfl, rfl⟩
                  · have h2 : processAnalysis ⟨some u, some u', .content s, .parsed d⟩ =
                        progressAction "configuracao" "Carregando configurações..." ++
                        (progressAction "manual" "Carregando manual da marca..." ++
                        (progressAction "prompt" "Preparando análise..." ++
                        progressAction "api" "Analisando com IA..." ++
                        (progressAction "processando" "Processando resultado..." ++
                        sendErrorActions (schemaViolationError
                          (validateJsonSchema nd ANALYSIS_SCHEMA).errors)))) := by
                      simp only [processAnalysis]
                      rw [if_neg hs, hn]
                      dsimp only
                      rw [if_neg hv]
                    rw [h2]
                    exact ⟨rfl, rfl⟩

/-- Claim C1: when the parsed model output normalizes without throwing but
still fails schema validation, `processAnalysis` writes its five progress
events and then exactly one terminal error event — whose payload is the
structured schema-violation error carrying `code = "LLM_SCHEMA_VIOLATION"`
and, as `details.errors`, the complete validator output in validator
order — closes, and never writes a result event. -/
theorem C1_schema_violation_terminal (s : String) (d nd : JSValue)
    (hs : s ≠ "") (hn : normalizeV6Data d = .ok nd)
    (hv : (validateJsonSchema nd ANALYSIS_SCHEMA).errors ≠ []) :
    processAnalysis ⟨some (), some (), .content s, .parsed d⟩ =
      progressAction "configuracao" "Carregando configurações..." ++
      (progressAction "manual" "Carregando manual da marca..." ++
      (progressAction "prompt" "Preparando análise..." ++
      progressAction "api" "Analisando com IA..." ++
      (progressAction "processando" "Processando resultado..." ++
      [.write (.errorEvent (schemaViolationError
          (validateJsonSchema nd ANALYSIS_SCHEMA).errors)),
       .close])))
    ∧ (schemaViolationError (validateJsonSchema nd ANALYSIS_SCHEMA).errors).code
        = some "LLM_SCHEMA_VIOLATION"
    ∧ (schemaViolationError (validateJsonSchema nd ANALYSIS_SCHEMA).errors).details
        = some (validateJsonSchema nd ANALYSIS_SCHEMA).errors := by
  have hvalid : (validateJsonSchema nd ANALYSIS_SCHEMA).valid = false := by
    simp only [validateJsonSchema] at hv ⊢
    simp only [beq_eq_false_iff_ne, ne_eq, List.length_eq_zero]
    exact hv
  refine ⟨?_, rfl, rfl⟩
  simp only [processAnalysis]
  rw [if_neg hs, hn]
  dsimp only
  rw [if_neg (by rw [hvalid]; simp)]
  rfl

def c1doc : JSValue :=
  .obj [("jobToBeDone", .obj [("avaliacao", .obj [("atinge", .bool true)])])]

/-- The normalization of `c1doc` (it normalizes successfully but is still
missing the required `jobToBeDone.avaliacao.justificativa`). -/
def c1norm : JSValue :=
  match normalizeV6Data c1doc with
  | .ok y => y
  | .error _ => .null

/-- Claim C1 witness: the schema-violation path at a concrete document
whose `avaliacao` lacks `justificativa` (present sections are not
defaulted, so validation still fails after normalization). -/
theorem C1_schema_violation_terminal_witness :
    processAnalysis ⟨some (), some (), .content "x", .parsed c1doc⟩ =
      progressAction "configuracao" "Carregando configurações..." ++
      (progressAction "manual" "Carregando manual da marca..." ++
      (progressAction "prompt" "Preparando análise..." ++
      progressAction "api" "Analisando com IA..." ++
      (progressAction "processando" "Processando resultado..." ++
      [.write (.errorEvent (schemaViolationError
          (validateJsonSchema c1norm ANALYSIS_SCHEMA).errors)),
       .close])))
    ∧ (schemaViolationError (validateJsonSchema c1norm ANALYSIS_SCHEMA).errors).code
        = some "LLM_SCHEMA_VIOLATION"
    ∧ (schemaViolationError (validateJsonSchema c1norm ANALYSIS_SCHEMA).errors).details
        = some (validateJsonSchema c1norm ANALYSIS_SCHEMA).errors :=
  C1_schema_violation_terminal "x" c1doc c1norm (by decide) rfl (by decide)

/-- Claim C7 witness: a 1-element array against a `minItems: 3` schema
reports the single "at least 3" error at the array's own path, and the
present element is still validated (its missing `motivo` is reported). -/
theorem C7_minItems_single_error_witness :
    validateAt (.arr [.obj [("resumo", .str "r")]] [])
        (.arrayS (some 3) (some 3) (.someI (.objectS ["resumo", "motivo"]
          (propsOf [("resumo", .stringS none), ("motivo", .stringS none)]))))
        "root.p" =
      [VErr.mk "Array must have at least 3 items" "root.p",
       VErr.mk "Missing required field: motivo" "root.p[0].motivo"]
    ∧ (validateAt (.arr [.obj [("resumo", .str "r")]] [])
        (.arrayS (some 3) (some 3) (.someI (.objectS ["resumo", "motivo"]
          (propsOf [("resumo", .stringS none), ("motivo", .stringS none)]))))
        "root.p").count (VErr.mk "Array must have at least 3 items" "root.p") = 1 := by
  have h := C7_minItems_single_error [.obj [("resumo", .str "r")]] []
    (some 3) (.someI (.objectS ["resumo", "motivo"]
      (propsOf [("resumo", .stringS none), ("motivo", .stringS none)])))
    "root.p" 3 (by decide)
  exact ⟨by rw [h.1]; rfl, h.2⟩

/-! ## Step lemmas for `normalizeV6Data` -/

/-- Values that accept property assignment. -/
def objOrArr (v : JSValue) : Prop :=
  (∃ fs, v = .obj fs) ∨ (∃ xs ps, v = .arr xs ps)

theorem jsGet_some_shape {v : JSValue} {k : String} {w : JSValue}
    (h : jsGet v k = some w) : objOrArr v := by
  cases v <;> simp [jsGet] at h <;> simp [objOrArr]

theorem objOrArr_truthy {v : JSValue} (h : objOrArr v) : jsTruthy v = true := by
  rcases h with ⟨fs, rfl⟩ | ⟨xs, ps, rfl⟩ <;> rfl

theorem jsSet_ok_shape {v : JSValue} {k : String} {w v' : JSValue}
    (h : jsSet v k w = .ok v') : objOrArr v' := by
  cases v <;> simp [jsSet] at h <;> (subst h; simp [objOrArr])

theorem jsSet_error_shape {v : JSValue} {k : String} {w : JSValue}
    (h : ¬ objOrArr v) : jsSet v k w = .error () := by
  cases v <;> simp [objOrArr] at h <;> rfl

/-- Characterization of a successful section block: other top-level keys
are untouched; the section key either receives the default (when it was
absent or falsy) or the sub-normalizer's output of its truthy value. -/
theorem normSection_ok {fs : Fields} {key : String} {dflt : JSValue}
    {sub : JSValue → Except Unit JSValue} {fs' : Fields}
    (h : normSection fs key dflt sub = .ok fs') :
    (∀ k, k ≠ key → getA fs' k = getA fs k) ∧
    ((truthyO (getA fs key) = false ∧ getA fs' key = some dflt) ∨
     (∃ v v', getA fs key = some v ∧ jsTruthy v = true ∧ sub v = .ok v' ∧
       getA fs' key = some v')) := by
  unfold normSection at h
  cases hk : getA fs key with
  | none =>
    rw [hk] at h
    simp only [pure, Except.pure, Except.ok.injEq] at h
    subst h
    exact ⟨fun k hkk => getA_setA_other _ _ _ _ hkk, .inl ⟨rfl, getA_setA_same _ _ _⟩⟩
  | some v =>
    rw [hk] at h
    dsimp only at h
    by_cases hv : jsTruthy v = true
    · rw [if_pos hv] at h
      cases hsub : sub v with
      | error e =>
        rw [hsub] at h
        simp [Bind.bind, Except.bind] at h
      | ok v' =>
        rw [hsub] at h
        simp only [Bind.bind, Except.bind, pure, Except.pure, Except.ok.injEq] at h
        subst h
        exact ⟨fun k hkk => getA_setA_other _ _ _ _ hkk,
          .inr ⟨v, v', rfl, hv, hsub, getA_setA_same _ _ _⟩⟩
    · rw [if_neg hv] at h
      simp only [pure, Except.pure, Except.ok.injEq] at h
      subst h
      refine ⟨fun k hkk => getA_setA_other _ _ _ _ hkk, .inl ⟨?_, getA_setA_same _ _ _⟩⟩
      simpa [truthyO] using hv

/-- A section block is the identity when the section is a present, truthy
value on which the sub-normalizer is the identity. -/
theorem normSection_id {fs : Fields} {key : String} (dflt : JSValue)
    {sub : JSValue → Except Unit JSValue} {v : JSValue}
    (hk : getA fs key = some v) (hv : jsTruthy v = true) (hsub : sub v = .ok v) :
    normSection fs key dflt sub = .ok fs := by
  unfold normSection
  rw [hk]
  dsimp only
  rw [if_pos hv, hsub]
  simp only [Bind.bind, Except.bind, pure, Except.pure, Except.ok.injEq]
  exact setA_id_of_getA _ _ _ hk

/-- Characterization of a successful nested numeric reset. -/
theorem fixNested_ok {fs : Fields} {sec sub : String} {fs' : Fields}
    (h : fixNested fs sec sub = .ok fs') :
    (numInRange ((getA fs sec).bind (jsGet · sub)) = true ∧ fs' = fs) ∨
    (numInRange ((getA fs sec).bind (jsGet · sub)) = false ∧
     ∃ sv sv', getA fs sec = some sv ∧ jsSet sv sub (.num 0) = .ok sv' ∧
       fs' = setA fs sec sv') := by
  unfold fixNested at h
  dsimp only at h
  by_cases hr : numInRange ((getA fs sec).bind (jsGet · sub)) = true
  · rw [if_pos hr] at h
    simp only [pure, Except.pure, Except.ok.injEq] at h
    exact .inl ⟨hr, h.symm⟩
  · rw [if_neg hr] at h
    cases hk : getA fs sec with
    | none =>
      rw [hk] at h
      simp at h
    | some sv =>
      rw [hk] at h
      dsimp only at h
      cases hset : jsSet sv sub (.num 0) with
      | error e =>
        rw [hset] at h
        simp [Bind.bind, Except.bind] at h
      | ok sv' =>
        rw [hset] at h
        simp only [Bind.bind, Except.bind, pure, Except.pure, Except.ok.injEq] at h
        rw [hk] at hr
        exact .inr ⟨(by simpa using hr), ⟨sv, sv', rfl, hset, h.symm⟩⟩

theorem fixNested_id {fs : Fields} {sec sub : String}
    (hr : numInRange ((getA fs sec).bind (jsGet · sub)) = true) :
    fixNested fs sec sub = .ok fs := by
  unfold fixNested
  dsimp only
  rw [if_pos hr]
  rfl

/-- Characterization of a successful `clareza` reset. -/
theorem fixClareza_ok {fs : Fields} {fs' : Fields}
    (h : fixClareza fs = .ok fs') :
    (numInRange (((getA fs "experiencia").bind (jsGet · "cta")).bind
        (jsGet · "clareza")) = true ∧ fs' = fs) ∨
    (numInRange (((getA fs "experiencia").bind (jsGet · "cta")).bind
        (jsGet · "clareza")) = false ∧
     ∃ e c c' e', getA fs "experiencia" = some e ∧ jsGet e "cta" = some c ∧
      jsSet c "clareza" (.num 0) = .ok c' ∧ jsSet e "cta" c' = .ok e' ∧
      fs' = setA fs "experiencia" e') := by
  unfold fixClareza at h
  dsimp only at h
  by_cases hr : numInRange (((getA fs "experiencia").bind (jsGet · "cta")).bind
      (jsGet · "clareza")) = true
  · rw [if_pos hr] at h
    simp only [pure, Except.pure, Except.ok.injEq] at h
    exact .inl ⟨hr, h.symm⟩
  · rw [if_neg hr] at h
    cases hk : getA fs "experiencia" with
    | none =>
      rw [hk] at h
      simp at h
    | some e =>
      rw [hk] at h
      dsimp only at h
      cases hc : jsGet e "cta" with
      | none =>
        rw [hc] at h
        simp at h
      | some c =>
        rw [hc] at h
        dsimp only at h
        cases hset : jsSet c "clareza" (.num 0) with
        | error er =>
          rw [hset] at h
          simp [Bind.bind, Except.bind] at h
        | ok c' =>
          rw [hset] at h
          simp only [Bind.bind, Except.bind] at h
          cases hset' : jsSet e "cta" c' with
          | error er =>
            rw [hset'] at h
            simp [Bind.bind, Except.bind] at h
          | ok e' =>
            rw [hset'] at h
            simp only [Bind.bind, Except.bind, pure, Except.pure, Except.ok.injEq] at h
            refine .inr ⟨by rw [hk] at hr; simpa using hr, ?_⟩
            exact ⟨e, c, c', e', rfl, hc, hset, hset', h.symm⟩

theorem fixClareza_id {fs : Fields}
    (hr : numInRange (((getA fs "experiencia").bind (jsGet · "cta")).bind
        (jsGet · "clareza")) = true) :
    fixClareza fs = .ok fs := by
  unfold fixClareza
  dsimp only
  rw [if_pos hr]
  rfl

/-- Characterization of one defaulting step. -/
theorem ensure_step {v : JSValue} {key : String} {w v' : JSValue}
    (h : ensureField v key w = .ok v') :
    (∀ k, k ≠ key → jsGet v' k = jsGet v k) ∧
    ((truthyO (jsGet v key) = true ∧ v' = v) ∨
     (truthyO (jsGet v key) = false ∧ jsGet v' key = some w ∧ objOrArr v')) := by
  unfold ensureField at h
  by_cases ht : truthyO (jsGet v key) = true
  · rw [if_pos ht] at h
    simp only [pure, Except.pure, Except.ok.injEq] at h
    subst h
    exact ⟨fun k _ => rfl, .inl ⟨ht, rfl⟩⟩
  · rw [if_neg ht] at h
    exact ⟨fun k hk => jsGet_jsSet_other k h hk,
      .inr ⟨by simpa using ht, jsGet_jsSet_same h, jsSet_ok_shape h⟩⟩

/-- Characterization of a successful `tomDeVoz` else-branch. -/
theorem normTom_ok {t t' : JSValue} (h : normTom t = .ok t') :
    objOrArr t' ∧
    (∀ k, k ≠ "manter" → k ≠ "mudar" → jsGet t' k = jsGet t k) ∧
    ((truthyO (jsGet t "manter") = true ∧ jsGet t' "manter" = jsGet t "manter") ∨
     (truthyO (jsGet t "manter") = false ∧ jsGet t' "manter" = some (.arr [] []))) ∧
    ((truthyO (jsGet t "mudar") = true ∧ jsGet t' "mudar" = jsGet t "mudar") ∨
     (truthyO (jsGet t "mudar") = false ∧ jsGet t' "mudar" = some (.arr [] []))) := by
  unfold normTom at h
  cases h1 : ensureField t "manter" (.arr [] []) with
  | error e => rw [h1] at h; simp [Bind.bind, Except.bind] at h
  | ok t1 =>
    rw [h1] at h
    simp only [Bind.bind, Except.bind] at h
    obtain ⟨hother1, hcase1⟩ := ensure_step h1
    have hmud1 : jsGet t1 "mudar" = jsGet t "mudar" := hother1 "mudar" (by decide)
    obtain ⟨hother2, hcase2⟩ := ensure_step h
    have hman2 : jsGet t' "manter" = jsGet t1 "manter" := hother2 "manter" (by decide)
    refine ⟨?_, ?_, ?_, ?_⟩
    · rcases hcase2 with ⟨ht2, rfl⟩ | ⟨_, _, hshape⟩
      · rcases hcase1 with ⟨ht1, rfl⟩ | ⟨_, _, hshape⟩
        · simp only [truthyO] at ht1
          cases hg : jsGet t' "manter" with
          | none => rw [hg] at ht1; simp at ht1
          | some m => exact jsGet_some_shape hg
        · exact hshape
      · exact hshape
    · intro k hk1 hk2
      rw [hother2 k hk2, hother1 k hk1]
    · rcases hcase1 with ⟨ht1, rfl⟩ | ⟨ht1, hval, _⟩
      · exact .inl ⟨ht1, hman2⟩
      · exact .inr ⟨ht1, by rw [hman2, hval]⟩
    · rcases hcase2 with ⟨ht2, rfl⟩ | ⟨ht2, hval, _⟩
      · exact .inl ⟨by rw [← hmud1]; exact ht2, by rw [hmud1]⟩
      · exact .inr ⟨by rw [← hmud1]; exact ht2, hval⟩

theorem truthyO_some_shape {v : JSValue} {k : String}
    (h : truthyO (jsGet v k) = true) : objOrArr v := by
  cases hg : jsGet v k with
  | none => rw [hg] at h; simp [truthyO] at h
  | some w => exact jsGet_some_shape hg

/-- Characterization of a successful `experiencia` else-branch. -/
theorem normExp_ok {e e' : JSValue} (h : normExp e = .ok e') :
    objOrArr e' ∧
    (∀ k, k ≠ "usabilidade" → k ≠ "visual" → k ≠ "acessibilidade" → k ≠ "cta" →
      jsGet e' k = jsGet e k) ∧
    ((truthyO (jsGet e "usabilidade") = true ∧
        jsGet e' "usabilidade" = jsGet e "usabilidade") ∨
     (truthyO (jsGet e "usabilidade") = false ∧
        jsGet e' "usabilidade" = some (.arr [] []))) ∧
    ((truthyO (jsGet e "visual") = true ∧ jsGet e' "visual" = jsGet e "visual") ∨
     (truthyO (jsGet e "visual") = false ∧ jsGet e' "visual" = some (.arr [] []))) ∧
    ((truthyO (jsGet e "acessibilidade") = true ∧
        jsGet e' "acessibilidade" = jsGet e "acessibilidade") ∨
     (truthyO (jsGet e "acessibilidade") = false ∧
        jsGet e' "acessibilidade" = some (.arr [] []))) ∧
    ((truthyO (jsGet e "cta") = true ∧ jsGet e' "cta" = jsGet e "cta") ∨
     (truthyO (jsGet e "cta") = false ∧ jsGet e' "cta" = some defaultCta)) := by
  unfold normExp at h
  cases h1 : ensureField e "usabilidade" (.arr [] []) with
  | error er => rw [h1] at h; simp [Bind.bind, Except.bind] at h
  | ok e1 =>
  rw [h1] at h
  simp only [Bind.bind, Except.bind] at h
  cases h2 : ensureField e1 "visual" (.arr [] []) with
  | error er => rw [h2] at h; simp at h
  | ok e2 =>
  rw [h2] at h
  simp only at h
  cases h3 : ensureField e2 "acessibilidade" (.arr [] []) with
  | error er => rw [h3] at h; simp at h
  | ok e3 =>
  rw [h3] at h
  simp only at h
  obtain ⟨ho1, hc1⟩ := ensure_step h1
  obtain ⟨ho2, hc2⟩ := ensure_step h2
  obtain ⟨ho3, hc3⟩ := ensure_step h3
  obtain ⟨ho4, hc4⟩ := ensure_step h
  have hu2 : jsGet e1 "visual" = jsGet e "visual" := ho1 _ (by decide)
  have hu3 : jsGet e2 "acessibilidade" = jsGet e1 "acessibilidade" := ho2 _ (by decide)
  have hu4 : jsGet e3 "cta" = jsGet e2 "cta" := ho3 _ (by decide)
  have hcta : jsGet e3 "cta" = jsGet e "cta" := by
    rw [hu4, ho2 _ (by decide), ho1 _ (by decide)]
  refine ⟨?_, ?_, ?_, ?_, ?_, ?_⟩
  · rcases hc4 with ⟨ht4, rfl⟩ | ⟨_, _, hs⟩
    · exact truthyO_some_shape ht4
    · exact hs
  · intro k k1 k2 k3 k4
    rw [ho4 k k4, ho3 k k3, ho2 k k2, ho1 k k1]
  · have hpres : jsGet e' "usabilidade" = jsGet e1 "usabilidade" := by
      rw [ho4 _ (by decide), ho3 _ (by decide), ho2 _ (by decide)]
    rcases hc1 with ⟨ht, hv⟩ | ⟨ht, hv, _⟩
    · subst hv
      exact .inl ⟨ht, hpres⟩
    · exact .inr ⟨ht, by rw [hpres, hv]⟩
  · have hpres : jsGet e' "visual" = jsGet e2 "visual" := by
      rw [ho4 _ (by decide), ho3 _ (by decide)]
    rcases hc2 with ⟨ht, hv⟩ | ⟨ht, hv, _⟩
    · subst hv
      exact .inl ⟨by rw [← hu2]; exact ht, by rw [hpres, hu2]⟩
    · exact .inr ⟨by rw [← hu2]; exact ht, by rw [hpres, hv]⟩
  · have hpres : jsGet e' "acessibilidade" = jsGet e3 "acessibilidade" := by
      rw [ho4 _ (by decide)]
    have hback : jsGet e2 "acessibilidade" = jsGet e "acessibilidade" := by
      rw [hu3, ho1 _ (by decide)]
    rcases hc3 with ⟨ht, hv⟩ | ⟨ht, hv, _⟩
    · subst hv
      exact .inl ⟨by rw [← hback]; exact ht, by rw [hpres, hback]⟩
    · exact .inr ⟨by rw [← hback]; exact ht, by rw [hpres, hv]⟩
  · rcases hc4 with ⟨ht, hv⟩ | ⟨ht, hv, _⟩
    · subst hv
      exact .inl ⟨by rw [← hcta]; exact ht, hcta⟩
    · exact .inr ⟨by rw [← hcta]; exact ht, hv⟩

/-- Characterization of a successful `jobToBeDone` else-branch. -/
theorem normJtbd_ok {j j' : JSValue} (h : normJtbd j = .ok j') :
    objOrArr j' ∧
    (∀ k, k ≠ "placeholderExemplo" → k ≠ "avaliacao" → jsGet j' k = jsGet j k) ∧
    ((truthyO (jsGet j "placeholderExemplo") = true ∧
        jsGet j' "placeholderExemplo" = jsGet j "placeholderExemplo") ∨
     (truthyO (jsGet j "placeholderExemplo") = false ∧
        jsGet j' "placeholderExemplo" = some (.str ""))) ∧
    ((truthyO (jsGet j "avaliacao") = false ∧
        jsGet j' "avaliacao" = some defaultAvaliacao) ∨
     (∃ a a', jsGet j "avaliacao" = some a ∧ jsTruthy a = true ∧
        jsGet j' "avaliacao" = some a' ∧ objOrArr a' ∧
        (∀ k, k ≠ "sugestoes" → jsGet a' k = jsGet a k) ∧
        ((truthyO (jsGet a "sugestoes") = true ∧
            jsGet a' "sugestoes" = jsGet a "sugestoes") ∨
         (truthyO (jsGet a "sugestoes") = false ∧
            jsGet a' "sugestoes" = some (.arr [] []))))) := by
  unfold normJtbd at h
  cases h1 : ensureField j "placeholderExemplo" (.str "") with
  | error er => rw [h1] at h; simp [Bind.bind, Except.bind] at h
  | ok j1 =>
  rw [h1] at h
  simp only [Bind.bind, Except.bind] at h
  obtain ⟨ho1, hc1⟩ := ensure_step h1
  have hav1 : jsGet j1 "avaliacao" = jsGet j "avaliacao" := ho1 _ (by decide)
  have hphfin : ∀ {j₂ : JSValue} {a : JSValue}, jsSet j1 "avaliacao" a = .ok j₂ →
      ((truthyO (jsGet j "placeholderExemplo") = true ∧
          jsGet j₂ "placeholderExemplo" = jsGet j "placeholderExemplo") ∨
       (truthyO (jsGet j "placeholderExemplo") = false ∧
          jsGet j₂ "placeholderExemplo" = some (.str ""))) := by
    intro j₂ a hset
    have hpres : jsGet j₂ "placeholderExemplo" = jsGet j1 "placeholderExemplo" :=
      jsGet_jsSet_other _ hset (by decide)
    rcases hc1 with ⟨ht, hv⟩ | ⟨ht, hv, _⟩
    · subst hv
      exact .inl ⟨ht, hpres⟩
    · exact .inr ⟨ht, by rw [hpres, hv]⟩
  have hothers : ∀ {j₂ : JSValue} {a : JSValue}, jsSet j1 "avaliacao" a = .ok j₂ →
      ∀ k, k ≠ "placeholderExemplo" → k ≠ "avaliacao" → jsGet j₂ k = jsGet j k := by
    intro j₂ a hset k k1 k2
    rw [jsGet_jsSet_other _ hset k2, ho1 _ k1]
  cases hav : jsGet j1 "avaliacao" with
  | none =>
    rw [hav] at h
    refine ⟨jsSet_ok_shape h, hothers h, hphfin h, .inl ⟨?_, jsGet_jsSet_same h⟩⟩
    rw [← hav1, hav]
    rfl
  | some a =>
    rw [hav] at h
    dsimp only at h
    by_cases hta : jsTruthy a = true
    · rw [if_pos hta] at h
      cases hsug : ensureField a "sugestoes" (.arr [] []) with
      | error er => rw [hsug] at h; simp at h
      | ok a' =>
      rw [hsug] at h
      simp only at h
      obtain ⟨hos, hcs⟩ := ensure_step hsug
      have hashape : objOrArr a' := by
        rcases hcs with ⟨ht, hv⟩ | ⟨_, _, hs⟩
        · subst hv
          exact truthyO_some_shape ht
        · exact hs
      have hcs' : (truthyO (jsGet a "sugestoes") = true ∧
            jsGet a' "sugestoes" = jsGet a "sugestoes") ∨
          (truthyO (jsGet a "sugestoes") = false ∧
            jsGet a' "sugestoes" = some (.arr [] [])) := by
        rcases hcs with ⟨ht, hv⟩ | ⟨ht, hv, _⟩
        · subst hv
          exact .inl ⟨ht, rfl⟩
        · exact .inr ⟨ht, hv⟩
      exact ⟨jsSet_ok_shape h, hothers h, hphfin h,
        .inr ⟨a, a', by rw [← hav1, hav], hta, jsGet_jsSet_same h, hashape, hos, hcs'⟩⟩
    · rw [if_neg hta] at h
      refine ⟨jsSet_ok_shape h, hothers h, hphfin h, .inl ⟨?_, jsGet_jsSet_same h⟩⟩
      rw [← hav1, hav]
      simpa [truthyO] using hta

theorem ensureField_id {v : JSValue} {key : String} {w : JSValue}
    (h : truthyO (jsGet v key) = true ∨ jsGet v key = some w) :
    ensureField v key w = .ok v := by
  unfold ensureField
  rcases h with h | h
  · rw [if_pos h]
    rfl
  · by_cases ht : truthyO (jsGet v key) = true
    · rw [if_pos ht]
      rfl
    · rw [if_neg ht]
      exact jsSet_id_of_jsGet h

theorem normTom_id {t : JSValue}
    (h1 : truthyO (jsGet t "manter") = true) (h2 : truthyO (jsGet t "mudar") = true) :
    normTom t = .ok t := by
  unfold normTom
  rw [ensureField_id (.inl h1)]
  simp only [Bind.bind, Except.bind]
  exact ensureField_id (.inl h2)

theorem normExp_id {e : JSValue}
    (h1 : truthyO (jsGet e "usabilidade") = true) (h2 : truthyO (jsGet e "visual") = true)
    (h3 : truthyO (jsGet e "acessibilidade") = true) (h4 : truthyO (jsGet e "cta") = true) :
    normExp e = .ok e := by
  unfold normExp
  rw [ensureField_id (.inl h1)]
  simp only [Bind.bind, Except.bind]
  rw [ensureField_id (.inl h2)]
  simp only
  rw [ensureField_id (.inl h3)]
  simp only
  exact ensureField_id (.inl h4)

theorem normJtbd_id {j : JSValue}
    (hph : truthyO (jsGet j "placeholderExemplo") = true ∨
      jsGet j "placeholderExemplo" = some (.str ""))
    {a : JSValue} (hav : jsGet j "avaliacao" = some a) (hta : jsTruthy a = true)
    (hsug : truthyO (jsGet a "sugestoes") = true) :
    normJtbd j = .ok j := by
  unfold normJtbd
  rw [ensureField_id hph]
  simp only [Bind.bind, Except.bind]
  rw [hav]
  dsimp only
  rw [if_pos hta, ensureField_id (.inl hsug)]
  simp only
  exact jsSet_id_of_jsGet hav

theorem objetivoFix_other (fs : Fields) (k : String) (hk : k ≠ "objetivoInferido") :
    getA (objetivoFix fs) k = getA fs k := by
  unfold objetivoFix
  split
  · rfl
  · exact getA_setA_other _ _ _ _ hk

theorem objetivoFix_key (fs : Fields) :
    (truthyO (getA fs "objetivoInferido") = true ∧
      getA (objetivoFix fs) "objetivoInferido" = getA fs "objetivoInferido") ∨
    (truthyO (getA fs "objetivoInferido") = false ∧
      getA (objetivoFix fs) "objetivoInferido" = some (.str "")) := by
  unfold objetivoFix
  by_cases ht : truthyO (getA fs "objetivoInferido") = true
  · rw [if_pos ht]
    exact .inl ⟨ht, rfl⟩
  · rw [if_neg ht]
    exact .inr ⟨by simpa using ht, getA_setA_same _ _ _⟩

theorem objetivoFix_id {fs : Fields} {v : JSValue}
    (hk : getA fs "objetivoInferido" = some v) (hv : jsTruthy v = true ∨ v = .str "") :
    objetivoFix fs = fs := by
  unfold objetivoFix
  rcases hv with hv | hv
  · rw [if_pos (by rw [hk]; exact hv)]
  · subst hv
    by_cases ht : truthyO (getA fs "objetivoInferido") = true
    · rw [if_pos ht]
    · rw [if_neg ht]
      exact setA_id_of_getA _ _ _ hk

theorem pontFix_other (fs : Fields) (k : String) (hk : k ≠ "pontuacaoGeral") :
    getA (pontFix fs) k = getA fs k := by
  unfold pontFix
  split
  · rfl
  · exact getA_setA_other _ _ _ _ hk

theorem pontFix_key (fs : Fields) :
    (numInRange (getA fs "pontuacaoGeral") = true ∧
      getA (pontFix fs) "pontuacaoGeral" = getA fs "pontuacaoGeral") ∨
    (numInRange (getA fs "pontuacaoGeral") = false ∧
      getA (pontFix fs) "pontuacaoGeral" = some (.num 0)) := by
  unfold pontFix
  by_cases ht : numInRange (getA fs "pontuacaoGeral") = true
  · rw [if_pos ht]
    exact .inl ⟨ht, rfl⟩
  · rw [if_neg ht]
    exact .inr ⟨by simpa using ht, getA_setA_same _ _ _⟩

theorem pontFix_id {fs : Fields} (h : numInRange (getA fs "pontuacaoGeral") = true) :
    pontFix fs = fs := by
  unfold pontFix
  rw [if_pos h]

theorem prioFloor_other (fs : Fields) (k : String) (hk : k ≠ "prioridadesTop3") :
    getA (prioFloor fs) k = getA fs k := by
  unfold prioFloor
  split
  · rfl
  · exact getA_setA_other _ _ _ _ hk

theorem prioFloor_key (fs : Fields) :
    (∃ p, getA (prioFloor fs) "prioridadesTop3" = some p ∧ jsTruthy p = true ∧
      lengthEqZero p = false) := by
  unfold prioFloor
  by_cases hc : (truthyO (getA fs "prioridadesTop3")
      && !(match getA fs "prioridadesTop3" with
           | some v => lengthEqZero v
           | none => false)) = true
  · rw [if_pos hc]
    simp only [Bool.and_eq_true, Bool.not_eq_true'] at hc
    obtain ⟨ht, hz⟩ := hc
    cases hg : getA fs "prioridadesTop3" with
    | none => rw [hg] at ht; simp [truthyO] at ht
    | some p =>
      rw [hg] at ht hz
      exact ⟨p, rfl, ht, hz⟩
  · rw [if_neg hc]
    exact ⟨.arr [placeholderPrioridade] [], getA_setA_same _ _ _, rfl, by decide⟩

theorem prioFloor_id {fs : Fields} {p : JSValue}
    (hg : getA fs "prioridadesTop3" = some p) (ht : jsTruthy p = true)
    (hz : lengthEqZero p = false) :
    prioFloor fs = fs := by
  unfold prioFloor
  rw [if_pos (by rw [hg]; simp [truthyO, ht, hz])]

theorem jsSliceThree_facts {p p' : JSValue} (hgt : lengthGtThree p = true)
    (h : jsSliceThree p = .ok p') :
    jsTruthy p' = true ∧ lengthEqZero p' = false ∧ lengthGtThree p' = false := by
  cases p with
  | arr xs props =>
    simp only [jsSliceThree, Except.ok.injEq] at h
    subst h
    simp only [lengthGtThree, jsLengthProp, jsToNumber, gtThreeNum,
      decide_eq_true_eq] at hgt
    have hlen' : 3 < xs.length := by exact_mod_cast hgt
    have htake : (xs.take 3).length = 3 := by
      rw [List.length_take]
      omega
    refine ⟨rfl, ?_, ?_⟩
    · simp [lengthEqZero, jsLengthProp, htake]
    · simp [lengthGtThree, jsLengthProp, jsToNumber, gtThreeNum, htake]
  | str s =>
    simp only [jsSliceThree, Except.ok.injEq] at h
    subst h
    simp only [lengthGtThree, jsLengthProp, jsToNumber, gtThreeNum,
      decide_eq_true_eq] at hgt
    have hlen' : 3 < s.length := by exact_mod_cast hgt
    have hdata : s.length = s.data.length := rfl
    have htake : (s.data.take 3).length = 3 := by
      rw [List.length_take]
      omega
    refine ⟨?_, ?_, ?_⟩
    · simp only [jsTruthy, ne_eq, decide_eq_true_eq]
      intro hcontra
      have hdd := congrArg String.data hcontra
      simp only [String.data] at hdd
      rw [hdd] at htake
      simp at htake
    · simp [lengthEqZero, jsLengthProp, String.length, htake]
    · simp [lengthGtThree, jsLengthProp, jsToNumber, gtThreeNum, String.length, htake]
  | num q => simp [lengthGtThree, jsLengthProp] at hgt
  | bool b => simp [lengthGtThree, jsLengthProp] at hgt
  | null => simp [lengthGtThree, jsLengthProp] at hgt
  | obj fs => simp [jsSliceThree] at h

theorem prioCeil_ok {fs fs' : Fields} (h : prioCeil fs = .ok fs') :
    (∀ k, k ≠ "prioridadesTop3" → getA fs' k = getA fs k) ∧
    ((getA fs "prioridadesTop3" = none ∧ fs' = fs) ∨
     (∃ p, getA fs "prioridadesTop3" = some p ∧
      ((lengthGtThree p = false ∧ fs' = fs) ∨
       (lengthGtThree p = true ∧ ∃ p', jsSliceThree p = .ok p' ∧
         getA fs' "prioridadesTop3" = some p')))) := by
  unfold prioCeil at h
  cases hg : getA fs "prioridadesTop3" with
  | none =>
    rw [hg] at h
    simp only [pure, Except.pure, Except.ok.injEq] at h
    subst h
    exact ⟨fun _ _ => rfl, .inl ⟨rfl, rfl⟩⟩
  | some p =>
    rw [hg] at h
    dsimp only at h
    by_cases hgt : lengthGtThree p = true
    · rw [if_pos hgt] at h
      cases hsl : jsSliceThree p with
      | error er => rw [hsl] at h; simp [Bind.bind, Except.bind] at h
      | ok p' =>
        rw [hsl] at h
        simp only [Bind.bind, Except.bind, pure, Except.pure, Except.ok.injEq] at h
        subst h
        exact ⟨fun k hk => getA_setA_other _ _ _ _ hk,
          .inr ⟨p, rfl, .inr ⟨hgt, p', hsl, getA_setA_same _ _ _⟩⟩⟩
    · rw [if_neg hgt] at h
      simp only [pure, Except.pure, Except.ok.injEq] at h
      subst h
      exact ⟨fun _ _ => rfl, .inr ⟨p, rfl, .inl ⟨by simpa using hgt, rfl⟩⟩⟩

theorem prioCeil_id {fs : Fields} {p : JSValue}
    (hg : getA fs "prioridadesTop3" = some p) (hgt : lengthGtThree p = false) :
    prioCeil fs = .ok fs := by
  unfold prioCeil
  rw [hg]
  dsimp only
  rw [if_neg (by simp [hgt])]
  rfl

/-- Normal form of a normalized top-level document: exactly the
post-conditions `normalizeV6Data` establishes, phrased so that a second
run leaves every step without work (`normCore_of_NF`). -/
def NFtop (gs : Fields) : Prop :=
  getA gs "schemaVersion" = some (.str "v6") ∧
  (∃ v, getA gs "objetivoInferido" = some v ∧ (jsTruthy v = true ∨ v = .str "")) ∧
  (∃ j, getA gs "jobToBeDone" = some j ∧ jsTruthy j = true ∧
    (truthyO (jsGet j "placeholderExemplo") = true ∨
      jsGet j "placeholderExemplo" = some (.str "")) ∧
    (∃ a, jsGet j "avaliacao" = some a ∧ jsTruthy a = true ∧
      truthyO (jsGet a "sugestoes") = true)) ∧
  (∃ t, getA gs "tomDeVoz" = some t ∧ jsTruthy t = true ∧
    truthyO (jsGet t "manter") = true ∧ truthyO (jsGet t "mudar") = true ∧
    numInRange (jsGet t "nota") = true) ∧
  (∃ e, getA gs "experiencia" = some e ∧ jsTruthy e = true ∧
    truthyO (jsGet e "usabilidade") = true ∧ truthyO (jsGet e "visual") = true ∧
    truthyO (jsGet e "acessibilidade") = true ∧ numInRange (jsGet e "nota") = true ∧
    (∃ c, jsGet e "cta" = some c ∧ jsTruthy c = true ∧
      numInRange (jsGet c "clareza") = true)) ∧
  (∃ p, getA gs "prioridadesTop3" = some p ∧ jsTruthy p = true ∧
    lengthEqZero p = false ∧ lengthGtThree p = false) ∧
  numInRange (getA gs "pontuacaoGeral") = true

/-- A document in normal form passes `normCore` unchanged. -/
theorem normCore_of_NF {gs : Fields} (h : NFtop gs) : normCore gs = .ok gs := by
  obtain ⟨h1, ⟨ov, hov, hovc⟩, ⟨j, hj, htj, hph, ⟨a, hav, hta, hsug⟩⟩,
    ⟨t, ht, htt, hman, hmud, hnota⟩,
    ⟨e, he, hte, husa, hvis, hace, henota, ⟨c, hcta, htc, hcl⟩⟩,
    ⟨p, hp, htp, hpz, hpg⟩, hpont⟩ := h
  unfold normCore
  dsimp only
  rw [setA_id_of_getA _ _ _ h1, objetivoFix_id hov hovc,
    normSection_id defaultJobToBeDone hj htj (normJtbd_id hph hav hta hsug)]
  try simp only [Bind.bind, Except.bind]
  rw [normSection_id defaultTomDeVoz ht htt (normTom_id hman hmud)]
  try simp only [Bind.bind, Except.bind]
  rw [normSection_id defaultExperiencia he hte (normExp_id husa hvis hace (by rw [hcta]; exact htc))]
  try simp only [Bind.bind, Except.bind]
  rw [prioFloor_id hp htp hpz, prioCeil_id hp hpg]
  try simp only [Bind.bind, Except.bind]
  rw [pontFix_id hpont, fixNested_id (by rw [ht]; simpa using hnota)]
  try simp only [Bind.bind, Except.bind]
  rw [fixNested_id (by rw [he]; simpa using henota)]
  try simp only [Bind.bind, Except.bind]
  exact fixClareza_id (by rw [he]; dsimp only [Option.bind]; rw [hcta]; dsimp only [Option.bind]; simpa using hcl)

/-- Decomposition of a successful `normCore` run into its steps. -/
theorem normCore_decomp {fs0 gs : Fields} (h : normCore fs0 = .ok gs) :
    ∃ fs3 fs4 fs5 fs7 fs9 fs10,
      normSection (objetivoFix (setA fs0 "schemaVersion" (.str "v6")))
        "jobToBeDone" defaultJobToBeDone normJtbd = .ok fs3 ∧
      normSection fs3 "tomDeVoz" defaultTomDeVoz normTom = .ok fs4 ∧
      normSection fs4 "experiencia" defaultExperiencia normExp = .ok fs5 ∧
      prioCeil (prioFloor fs5) = .ok fs7 ∧
      fixNested (pontFix fs7) "tomDeVoz" "nota" = .ok fs9 ∧
      fixNested fs9 "experiencia" "nota" = .ok fs10 ∧
      fixClareza fs10 = .ok gs := by
  unfold normCore at h
  dsimp only at h
  cases h3 : normSection (objetivoFix (setA fs0 "schemaVersion" (.str "v6")))
      "jobToBeDone" defaultJobToBeDone normJtbd with
  | error er => rw [h3] at h; simp [Bind.bind, Except.bind] at h
  | ok fs3 =>
  rw [h3] at h
  simp only [Bind.bind, Except.bind] at h
  cases h4 : normSection fs3 "tomDeVoz" defaultTomDeVoz normTom with
  | error er => rw [h4] at h; simp at h
  | ok fs4 =>
  rw [h4] at h
  simp only at h
  cases h5 : normSection fs4 "experiencia" defaultExperiencia normExp with
  | error er => rw [h5] at h; simp at h
  | ok fs5 =>
  rw [h5] at h
  simp only at h
  cases h7 : prioCeil (prioFloor fs5) with
  | error er => rw [h7] at h; simp at h
  | ok fs7 =>
  rw [h7] at h
  simp only at h
  cases h9 : fixNested (pontFix fs7) "tomDeVoz" "nota" with
  | error er => rw [h9] at h; simp at h
  | ok fs9 =>
  rw [h9] at h
  simp only at h
  cases h10 : fixNested fs9 "experiencia" "nota" with
  | error er => rw [h10] at h; simp at h
  | ok fs10 =>
  rw [h10] at h
  simp only at h
  exact ⟨fs3, fs4, fs5, fs7, fs9, fs10, rfl, h4, h5, h7, h9, h10, h⟩

theorem fixNested_other {fs fs' : Fields} {sec sub : String}
    (h : fixNested fs sec sub = .ok fs') :
    ∀ k, k ≠ sec → getA fs' k = getA fs k := by
  intro k hk
  rcases fixNested_ok h with ⟨_, rfl⟩ | ⟨_, sv, sv', _, _, rfl⟩
  · rfl
  · exact getA_setA_other _ _ _ _ hk

theorem fixClareza_other {fs fs' : Fields} (h : fixClareza fs = .ok fs') :
    ∀ k, k ≠ "experiencia" → getA fs' k = getA fs k := by
  intro k hk
  rcases fixClareza_ok h with ⟨_, rfl⟩ | ⟨_, e, c, c', e', _, _, _, _, rfl⟩
  · rfl
  · exact getA_setA_other _ _ _ _ hk

theorem numInRange_bind {o : Option JSValue} {g : JSValue → Option JSValue}
    (h : numInRange (o.bind g) = true) :
    ∃ v, o = some v ∧ numInRange (g v) = true := by
  cases o with
  | none => simp [numInRange] at h
  | some v => exact ⟨v, rfl, by simpa using h⟩

theorem numInRange_some {o : Option JSValue} (h : numInRange o = true) :
    ∃ q : ℚ, o = some (.num q) ∧ 0 ≤ q ∧ q ≤ 10 := by
  cases o with
  | none => simp [numInRange] at h
  | some v =>
    cases v with
    | num q =>
      refine ⟨q, rfl, ?_⟩
      simpa [numInRange] using h
    | null => simp [numInRange] at h
    | bool b => simp [numInRange] at h
    | str s => simp [numInRange] at h
    | arr xs ps => simp [numInRange] at h
    | obj fs => simp [numInRange] at h

/-- Establishment: a successful `normCore` run leaves the document in
normal form. -/
theorem normCore_NF {fs0 gs : Fields} (h : normCore fs0 = .ok gs) : NFtop gs := by
  obtain ⟨fs3, fs4, fs5, fs7, fs9, fs10, h3, h4, h5, h7, h9, h10, h11⟩ := normCore_decomp h
  obtain ⟨o3, c3⟩ := normSection_ok h3
  obtain ⟨o4, c4⟩ := normSection_ok h4
  obtain ⟨o5, c5⟩ := normSection_ok h5
  obtain ⟨o7, c7⟩ := prioCeil_ok h7
  have o9 := fixNested_other h9
  have o10 := fixNested_other h10
  have o11 := fixClareza_other h11
  refine ⟨?_, ?_, ?_, ?_, ?_, ?_, ?_⟩
  · -- schemaVersion
    rw [o11 _ (by decide), o10 _ (by decide), o9 _ (by decide),
        pontFix_other _ _ (by decide), o7 _ (by decide), prioFloor_other _ _ (by decide),
        o5 _ (by decide), o4 _ (by decide), o3 _ (by decide),
        objetivoFix_other _ _ (by decide)]
    exact getA_setA_same _ _ _
  · -- objetivoInferido
    have hchain : getA gs "objetivoInferido" =
        getA (objetivoFix (setA fs0 "schemaVersion" (.str "v6"))) "objetivoInferido" := by
      rw [o11 _ (by decide), o10 _ (by decide), o9 _ (by decide),
          pontFix_other _ _ (by decide), o7 _ (by decide), prioFloor_other _ _ (by decide),
          o5 _ (by decide), o4 _ (by decide), o3 _ (by decide)]
    rcases objetivoFix_key (setA fs0 "schemaVersion" (.str "v6")) with ⟨ht, hval⟩ | ⟨ht, hval⟩
    · rw [hval] at hchain
      cases hg : getA (setA fs0 "schemaVersion" (.str "v6")) "objetivoInferido" with
      | none => rw [hg] at ht; simp [truthyO] at ht
      | some v =>
        rw [hg] at ht hchain
        exact ⟨v, hchain, .inl (by simpa [truthyO] using ht)⟩
    · rw [hval] at hchain
      exact ⟨.str "", hchain, .inr rfl⟩
  · -- jobToBeDone
    have hchain : getA gs "jobToBeDone" = getA fs3 "jobToBeDone" := by
      rw [o11 _ (by decide), o10 _ (by decide), o9 _ (by decide),
          pontFix_other _ _ (by decide), o7 _ (by decide), prioFloor_other _ _ (by decide),
          o5 _ (by decide), o4 _ (by decide)]
    rcases c3 with ⟨_, hval⟩ | ⟨v, v', hg, htv, hsub, hval⟩
    · rw [hval] at hchain
      exact ⟨defaultJobToBeDone, hchain, rfl, .inr rfl, ⟨defaultAvaliacao, rfl, rfl, rfl⟩⟩
    · rw [hval] at hchain
      obtain ⟨hshape, hoth, hphc, havc⟩ := normJtbd_ok hsub
      refine ⟨v', hchain, objOrArr_truthy hshape, ?_, ?_⟩
      · rcases hphc with ⟨ht, hval2⟩ | ⟨_, hval2⟩
        · exact .inl (by rw [hval2]; exact ht)
        · exact .inr hval2
      · rcases havc with ⟨_, hval2⟩ | ⟨a, a', hga, hta, hga', hshap', hoths, hsugc⟩
        · exact ⟨defaultAvaliacao, hval2, rfl, rfl⟩
        · refine ⟨a', hga', objOrArr_truthy hshap', ?_⟩
          rcases hsugc with ⟨ht, hv⟩ | ⟨_, hv⟩
          · rw [hv]; exact ht
          · rw [hv]; rfl
  · -- tomDeVoz
    have hfs4 : ∃ t4, getA fs4 "tomDeVoz" = some t4 ∧ jsTruthy t4 = true ∧
        truthyO (jsGet t4 "manter") = true ∧ truthyO (jsGet t4 "mudar") = true := by
      rcases c4 with ⟨_, hval⟩ | ⟨v, v', hg, htv, hsub, hval⟩
      · exact ⟨defaultTomDeVoz, hval, rfl, rfl, rfl⟩
      · obtain ⟨hshape, hoth, hmanc, hmudc⟩ := normTom_ok hsub
        refine ⟨v', hval, objOrArr_truthy hshape, ?_, ?_⟩
        · rcases hmanc with ⟨ht, hv⟩ | ⟨_, hv⟩
          · rw [hv]; exact ht
          · rw [hv]; rfl
        · rcases hmudc with ⟨ht, hv⟩ | ⟨_, hv⟩
          · rw [hv]; exact ht
          · rw [hv]; rfl
    obtain ⟨t4, hg4, ht4, hman4, hmud4⟩ := hfs4
    have hg8 : getA (pontFix fs7) "tomDeVoz" = some t4 := by
      rw [pontFix_other _ _ (by decide), o7 _ (by decide),
          prioFloor_other _ _ (by decide), o5 _ (by decide)]
      exact hg4
    have hchain : ∀ v, getA fs9 "tomDeVoz" = v → getA gs "tomDeVoz" = v := by
      intro v hv
      rw [o11 _ (by decide), o10 _ (by decide)]
      exact hv
    rcases fixNested_ok h9 with ⟨hr, hfs⟩ | ⟨hr, sv, sv', hg, hset, hfs⟩
    · subst hfs
      rw [hg8] at hr
      simp only [Option.bind] at hr
      exact ⟨t4, hchain _ hg8, ht4, hman4, hmud4, hr⟩
    · rw [hg] at hg8
      injection hg8 with hsv
      subst hsv
      subst hfs
      refine ⟨sv', hchain _ (getA_setA_same _ _ _),
        objOrArr_truthy (jsSet_ok_shape hset), ?_, ?_, ?_⟩
      · rw [jsGet_jsSet_other _ hset (by decide)]
        exact hman4
      · rw [jsGet_jsSet_other _ hset (by decide)]
        exact hmud4
      · rw [jsGet_jsSet_same hset]
        decide
  · -- experiencia
    have hfs5 : ∃ e5, getA fs5 "experiencia" = some e5 ∧ jsTruthy e5 = true ∧
        truthyO (jsGet e5 "usabilidade") = true ∧ truthyO (jsGet e5 "visual") = true ∧
        truthyO (jsGet e5 "acessibilidade") = true ∧
        (∃ c, jsGet e5 "cta" = some c ∧ jsTruthy c = true) := by
      rcases c5 with ⟨_, hval⟩ | ⟨v, v', hg, htv, hsub, hval⟩
      · exact ⟨defaultExperiencia, hval, rfl, rfl, rfl, rfl, defaultCta, rfl, rfl⟩
      · obtain ⟨hshape, hoth, hu, hv2, ha, hc⟩ := normExp_ok hsub
        refine ⟨v', hval, objOrArr_truthy hshape, ?_, ?_, ?_, ?_⟩
        · rcases hu with ⟨ht, hv3⟩ | ⟨_, hv3⟩
          · rw [hv3]; exact ht
          · rw [hv3]; rfl
        · rcases hv2 with ⟨ht, hv3⟩ | ⟨_, hv3⟩
          · rw [hv3]; exact ht
          · rw [hv3]; rfl
        · rcases ha with ⟨ht, hv3⟩ | ⟨_, hv3⟩
          · rw [hv3]; exact ht
          · rw [hv3]; rfl
        · rcases hc with ⟨ht, hv3⟩ | ⟨_, hv3⟩
          · rw [hv3]
            cases hgc : jsGet v "cta" with
            | none => rw [hgc] at ht; simp [truthyO] at ht
            | some c =>
              rw [hgc] at ht
              exact ⟨c, rfl, by simpa [truthyO] using ht⟩
          · rw [hv3]
            exact ⟨defaultCta, rfl, rfl⟩
    obtain ⟨e5, hg5, ht5, hu5, hv5, ha5, c5v, hcta5, htc5⟩ := hfs5
    have hg9 : getA fs9 "experiencia" = some e5 := by
      rw [o9 _ (by decide), pontFix_other _ _ (by decide), o7 _ (by decide),
          prioFloor_other _ _ (by decide)]
      exact hg5
    have hfs10 : ∃ e10, getA fs10 "experiencia" = some e10 ∧ jsTruthy e10 = true ∧
        truthyO (jsGet e10 "usabilidade") = true ∧ truthyO (jsGet e10 "visual") = true ∧
        truthyO (jsGet e10 "acessibilidade") = true ∧
        numInRange (jsGet e10 "nota") = true ∧
        (∃ c, jsGet e10 "cta" = some c ∧ jsTruthy c = true) := by
      rcases fixNested_ok h10 with ⟨hr, hfs⟩ | ⟨hr, sv, sv', hg, hset, hfs⟩
      · subst hfs
        rw [hg9] at hr
        simp only [Option.bind] at hr
        exact ⟨e5, hg9, ht5, hu5, hv5, ha5, hr, c5v, hcta5, htc5⟩
      · rw [hg] at hg9
        injection hg9 with hsv
        subst hsv
        subst hfs
        refine ⟨sv', getA_setA_same _ _ _, objOrArr_truthy (jsSet_ok_shape hset),
          ?_, ?_, ?_, ?_, ?_⟩
        · rw [jsGet_jsSet_other _ hset (by decide)]; exact hu5
        · rw [jsGet_jsSet_other _ hset (by decide)]; exact hv5
        · rw [jsGet_jsSet_other _ hset (by decide)]; exact ha5
        · rw [jsGet_jsSet_same hset]; decide
        · rw [jsGet_jsSet_other _ hset (by decide)]
          exact ⟨c5v, hcta5, htc5⟩
    obtain ⟨e10, hg10, ht10, hu10, hv10, ha10, hn10, c10, hcta10, htc10⟩ := hfs10
    rcases fixClareza_ok h11 with ⟨hr, hfs⟩ | ⟨hr0, e, c, c', e', hg, hgc, hsetc, hsete, hfs⟩
    · subst hfs
      rw [hg10] at hr
      simp only [Option.bind] at hr
      rw [hcta10] at hr
      simp only [Option.bind] at hr
      obtain ⟨q, hq, _, _⟩ := numInRange_some hr
      exact ⟨e10, hg10, ht10, hu10, hv10, ha10, hn10,
        c10, hcta10, htc10, hr⟩
    · rw [hg] at hg10
      injection hg10 with he
      subst he
      rw [hgc] at hcta10
      injection hcta10 with hc
      subst hc
      subst hfs
      refine ⟨e', getA_setA_same _ _ _, objOrArr_truthy (jsSet_ok_shape hsete),
        ?_, ?_, ?_, ?_, ?_⟩
      · rw [jsGet_jsSet_other _ hsete (by decide)]; exact hu10
      · rw [jsGet_jsSet_other _ hsete (by decide)]; exact hv10
      · rw [jsGet_jsSet_other _ hsete (by decide)]; exact ha10
      · rw [jsGet_jsSet_other _ hsete (by decide)]; exact hn10
      · refine ⟨c', jsGet_jsSet_same hsete, objOrArr_truthy (jsSet_ok_shape hsetc), ?_⟩
        rw [jsGet_jsSet_same hsetc]
        decide
  · -- prioridadesTop3
    obtain ⟨p6, hg6, htp6, hz6⟩ := prioFloor_key fs5
    have hchain : ∀ v, getA fs7 "prioridadesTop3" = v → getA gs "prioridadesTop3" = v := by
      intro v hv
      rw [o11 _ (by decide), o10 _ (by decide), o9 _ (by decide),
          pontFix_other _ _ (by decide)]
      exact hv
    rcases c7 with ⟨hnone, _⟩ | ⟨p, hgp, hcase⟩
    · rw [hg6] at hnone
      exact absurd hnone (by simp)
    · rw [hgp] at hg6
      injection hg6 with hp6
      subst hp6
      rcases hcase with ⟨hgt, hfs⟩ | ⟨hgt, p', hsl, hg'⟩
      · subst hfs
        exact ⟨p, hchain _ hgp, htp6, hz6, hgt⟩
      · obtain ⟨ht', hz', hgt'⟩ := jsSliceThree_facts hgt hsl
        exact ⟨p', hchain _ hg', ht', hz', hgt'⟩
  · -- pontuacaoGeral
    have hchain : ∀ v, getA (pontFix fs7) "pontuacaoGeral" = v →
        getA gs "pontuacaoGeral" = v := by
      intro v hv
      rw [o11 _ (by decide), o10 _ (by decide), o9 _ (by decide)]
      exact hv
    rcases pontFix_key fs7 with ⟨hr, hv⟩ | ⟨_, hv⟩
    · rw [hchain _ hv]
      exact hr
    · rw [hchain _ hv]
      decide

/-- Claim C3: `normalizeV6Data` is idempotent — whenever it returns a
document (rather than throwing), running it again on its own output
returns the output structurally unchanged. -/
theorem C3_normalize_idempotent (x y : JSValue) (h : normalizeV6Data x = .ok y) :
    normalizeV6Data y = .ok y := by
  unfold normalizeV6Data at h ⊢
  cases hc : normCore (jsSpread x) with
  | error e =>
    rw [hc] at h
    simp [Except.map] at h
  | ok gs =>
    rw [hc] at h
    simp only [Except.map, Except.ok.injEq] at h
    subst h
    have hsp : jsSpread (.obj gs) = gs := rfl
    rw [hsp, normCore_of_NF (normCore_NF hc)]
    rfl

def c3norm : JSValue :=
  match normalizeV6Data (.obj [("pontuacaoGeral", .num 15)]) with
  | .ok y => y
  | .error _ => .null

/-- Claim C3 witness: idempotence at a concrete input (an out-of-range
score that the first pass resets). -/
theorem C3_normalize_idempotent_witness : normalizeV6Data c3norm = .ok c3norm :=
  C3_normalize_idempotent (.obj [("pontuacaoGeral", .num 15)]) c3norm rfl

/-- Claim C4: the four `[0,10]`-ranged fields are reset to 0 by
normalization whenever the input value is not a number in range (absent,
wrong type, or out of bounds) — and in the spec's scenario, an input with
`experiencia.cta.clareza = 15` normalizes to `clareza = 0`, after which
that field contributes no validation error. -/
theorem C4_numeric_reset :
    (∀ x y, normalizeV6Data x = .ok y →
      (numInRange (getA (jsSpread x) "pontuacaoGeral") = false →
        jsGet y "pontuacaoGeral" = some (.num 0)) ∧
      (numInRange ((getA (jsSpread x) "tomDeVoz").bind (jsGet · "nota")) = false →
        (jsGet y "tomDeVoz").bind (jsGet · "nota") = some (.num 0)) ∧
      (numInRange ((getA (jsSpread x) "experiencia").bind (jsGet · "nota")) = false →
        (jsGet y "experiencia").bind (jsGet · "nota") = some (.num 0)) ∧
      (numInRange (((getA (jsSpread x) "experiencia").bind (jsGet · "cta")).bind
          (jsGet · "clareza")) = false →
        ((jsGet y "experiencia").bind (jsGet · "cta")).bind (jsGet · "clareza")
          = some (.num 0)))
    ∧ (∃ y15, normalizeV6Data
        (.obj [("experiencia", .obj [("cta", .obj [("clareza", .num 15)])])]) = .ok y15 ∧
      ((jsGet y15 "experiencia").bind (jsGet · "cta")).bind (jsGet · "clareza")
        = some (.num 0) ∧
      (validateJsonSchema y15 ANALYSIS_SCHEMA).errors.all
        (fun e => e.path ≠ "root.experiencia.cta.clareza") = true) := by
  constructor
  · intro x y h
    unfold normalizeV6Data at h
    cases hc : normCore (jsSpread x) with
    | error e => rw [hc] at h; simp [Except.map] at h
    | ok gs =>
    rw [hc] at h
    simp only [Except.map, Except.ok.injEq] at h
    subst h
    obtain ⟨fs3, fs4, fs5, fs7, fs9, fs10, h3, h4, h5, h7, h9, h10, h11⟩ := normCore_decomp hc
    obtain ⟨o3, c3⟩ := normSection_ok h3
    obtain ⟨o4, c4⟩ := normSection_ok h4
    obtain ⟨o5, c5⟩ := normSection_ok h5
    obtain ⟨o7, c7⟩ := prioCeil_ok h7
    have o9 := fixNested_other h9
    have o10 := fixNested_other h10
    have o11 := fixClareza_other h11
    have hyg : ∀ k, jsGet (JSValue.obj gs) k = getA gs k := fun k => rfl
    -- the value of `tomDeVoz` right before its nota fix, related to the input
    have htom4 : (truthyO (getA (jsSpread x) "tomDeVoz") = false ∧
          getA fs4 "tomDeVoz" = some defaultTomDeVoz) ∨
        (∃ v v', getA (jsSpread x) "tomDeVoz" = some v ∧
          getA fs4 "tomDeVoz" = some v' ∧ jsGet v' "nota" = jsGet v "nota") := by
      have hback : getA fs3 "tomDeVoz" = getA (jsSpread x) "tomDeVoz" := by
        rw [o3 _ (by decide), objetivoFix_other _ _ (by decide),
            getA_setA_other _ _ _ _ (by decide)]
      rcases c4 with ⟨ht, hval⟩ | ⟨v, v', hg, htv, hsub, hval⟩
      · exact .inl ⟨by rw [← hback]; exact ht, hval⟩
      · obtain ⟨_, hoth, _, _⟩ := normTom_ok hsub
        exact .inr ⟨v, v', by rw [← hback]; exact hg, hval,
          hoth _ (by decide) (by decide)⟩
    -- the value of `experiencia` right before its fixes, related to the input
    have hexp5 : (truthyO (getA (jsSpread x) "experiencia") = false ∧
          getA fs5 "experiencia" = some defaultExperiencia) ∨
        (∃ v v', getA (jsSpread x) "experiencia" = some v ∧
          getA fs5 "experiencia" = some v' ∧ jsGet v' "nota" = jsGet v "nota" ∧
          ((truthyO (jsGet v "cta") = true ∧ jsGet v' "cta" = jsGet v "cta") ∨
           (truthyO (jsGet v "cta") = false ∧ jsGet v' "cta" = some defaultCta))) := by
      have hback : getA fs4 "experiencia" = getA (jsSpread x) "experiencia" := by
        rw [o4 _ (by decide), o3 _ (by decide), objetivoFix_other _ _ (by decide),
            getA_setA_other _ _ _ _ (by decide)]
      rcases c5 with ⟨ht, hval⟩ | ⟨v, v', hg, htv, hsub, hval⟩
      · exact .inl ⟨by rw [← hback]; exact ht, hval⟩
      · obtain ⟨_, hoth, _, _, _, hcta⟩ := normExp_ok hsub
        exact .inr ⟨v, v', by rw [← hback]; exact hg, hval,
          hoth _ (by decide) (by decide) (by decide) (by decide), hcta⟩
    refine ⟨?_, ?_, ?_, ?_⟩
    · -- pontuacaoGeral
      intro hbad
      have hback : getA fs7 "pontuacaoGeral" = getA (jsSpread x) "pontuacaoGeral" := by
        rw [o7 _ (by decide), prioFloor_other _ _ (by decide), o5 _ (by decide),
            o4 _ (by decide), o3 _ (by decide), objetivoFix_other _ _ (by decide),
            getA_setA_other _ _ _ _ (by decide)]
      rw [hyg, o11 _ (by decide), o10 _ (by decide), o9 _ (by decide)]
      rcases pontFix_key fs7 with ⟨hr, _⟩ | ⟨_, hv⟩
      · rw [hback] at hr
        rw [hr] at hbad
        simp at hbad
      · exact hv
    · -- tomDeVoz.nota
      intro hbad
      rw [hyg, o11 _ (by decide), o10 _ (by decide)]
      have hg8 : ∀ v, getA fs4 "tomDeVoz" = v → getA (pontFix fs7) "tomDeVoz" = v := by
        intro v hv
        rw [pontFix_other _ _ (by decide), o7 _ (by decide),
            prioFloor_other _ _ (by decide), o5 _ (by decide)]
        exact hv
      rcases htom4 with ⟨ht, hval⟩ | ⟨v, v', hg, hval, hnota⟩
      · -- defaulted section: nota is already 0 and the fix keeps it
        have hg8' := hg8 _ hval
        rcases fixNested_ok h9 with ⟨hr, hfs⟩ | ⟨hr, sv, sv', hgs, hset, hfs⟩
        · subst hfs
          rw [hg8']
          rfl
        · rw [hgs] at hg8'
          injection hg8' with hsv
          subst hsv
          subst hfs
          rw [getA_setA_same]
          simp only [Option.bind]
          exact jsGet_jsSet_same hset
      · -- kept section: its nota is the input nota, hence out of range
        have hg8' := hg8 _ hval
        rcases fixNested_ok h9 with ⟨hr, hfs⟩ | ⟨hr, sv, sv', hgs, hset, hfs⟩
        · exfalso
          rw [hg8'] at hr
          simp only [Option.bind] at hr
          rw [hnota] at hr
          rw [hg] at hbad
          simp only [Option.bind] at hbad
          rw [hbad] at hr
          simp at hr
        · rw [hgs] at hg8'
          injection hg8' with hsv
          subst hsv
          subst hfs
          rw [getA_setA_same]
          simp only [Option.bind]
          exact jsGet_jsSet_same hset
    · -- experiencia.nota
      intro hbad
      rw [hyg]
      have hg9 : ∀ v, getA fs5 "experiencia" = v → getA fs9 "experiencia" = v := by
        intro v hv
        rw [o9 _ (by decide), pontFix_other _ _ (by decide), o7 _ (by decide),
            prioFloor_other _ _ (by decide)]
        exact hv
      have h10nota : ∃ e10, getA fs10 "experiencia" = some e10 ∧
          jsGet e10 "nota" = some (.num 0) := by
        rcases hexp5 with ⟨ht, hval⟩ | ⟨v, v', hg, hval, hnota, _⟩
        · have hg9' := hg9 _ hval
          rcases fixNested_ok h10 with ⟨hr, hfs⟩ | ⟨hr, sv, sv', hgs, hset, hfs⟩
          · subst hfs
            exact ⟨defaultExperiencia, hg9', rfl⟩
          · rw [hgs] at hg9'
            injection hg9' with hsv
            subst hsv
            subst hfs
            exact ⟨sv', getA_setA_same _ _ _, jsGet_jsSet_same hset⟩
        · have hg9' := hg9 _ hval
          rcases fixNested_ok h10 with ⟨hr, hfs⟩ | ⟨hr, sv, sv', hgs, hset, hfs⟩
          · exfalso
            rw [hg9'] at hr
            simp only [Option.bind] at hr
            rw [hnota] at hr
            rw [hg] at hbad
            simp only [Option.bind] at hbad
            rw [hbad] at hr
            simp at hr
          · rw [hgs] at hg9'
            injection hg9' with hsv
            subst hsv
            subst hfs
            exact ⟨sv', getA_setA_same _ _ _, jsGet_jsSet_same hset⟩
      obtain ⟨e10, hge10, hn10⟩ := h10nota
      rcases fixClareza_ok h11 with ⟨hr, hfs⟩ | ⟨hr0, e, c, c', e', hg, hgc, hsetc, hsete, hfs⟩
      · subst hfs
        rw [hge10]
        simp only [Option.bind]
        exact hn10
      · rw [hg] at hge10
        injection hge10 with he
        subst he
        subst hfs
        rw [getA_setA_same]
        simp only [Option.bind]
        rw [jsGet_jsSet_other _ hsete (by decide)]
        exact hn10
    · -- experiencia.cta.clareza
      intro hbad
      rw [hyg]
      -- value of `experiencia` and its `cta` entering the clareza fix
      have hcta10 : ∃ e10 c10, getA fs10 "experiencia" = some e10 ∧
          jsGet e10 "cta" = some c10 ∧
          (jsGet c10 "clareza" = some (.num 0) ∨
            jsGet c10 "clareza" =
              ((getA (jsSpread x) "experiencia").bind (jsGet · "cta")).bind
                (jsGet · "clareza")) := by
        have hg9 : ∀ v, getA fs5 "experiencia" = v → getA fs9 "experiencia" = v := by
          intro v hv
          rw [o9 _ (by decide), pontFix_other _ _ (by decide), o7 _ (by decide),
              prioFloor_other _ _ (by decide)]
          exact hv
        have hstep10 : ∀ e9, getA fs9 "experiencia" = some e9 →
            ∃ e10, getA fs10 "experiencia" = some e10 ∧
              jsGet e10 "cta" = jsGet e9 "cta" := by
          intro e9 hge9
          rcases fixNested_ok h10 with ⟨hr, hfs⟩ | ⟨hr, sv, sv', hgs, hset, hfs⟩
          · subst hfs
            exact ⟨e9, hge9, rfl⟩
          · rw [hgs] at hge9
            injection hge9 with hsv
            subst hsv
            subst hfs
            exact ⟨sv', getA_setA_same _ _ _, jsGet_jsSet_other _ hset (by decide)⟩
        rcases hexp5 with ⟨ht, hval⟩ | ⟨v, v', hg, hval, _, hcta⟩
        · obtain ⟨e10, hge10, hcta10⟩ := hstep10 _ (hg9 _ hval)
          refine ⟨e10, defaultCta, hge10, by rw [hcta10]; rfl, .inl rfl⟩
        · obtain ⟨e10, hge10, hcta10⟩ := hstep10 _ (hg9 _ hval)
          rcases hcta with ⟨htc, hvc⟩ | ⟨htc, hvc⟩
          · -- cta kept from the input
            cases hgc : jsGet v "cta" with
            | none => rw [hgc] at htc; simp [truthyO] at htc
            | some c =>
              refine ⟨e10, c, hge10, by rw [hcta10, hvc, hgc], .inr ?_⟩
              rw [hg]
              simp only [Option.bind]
              rw [hgc]
          · exact ⟨e10, defaultCta, hge10, by rw [hcta10, hvc], .inl rfl⟩
      obtain ⟨e10, c10, hge10, hgc10, hcl10⟩ := hcta10
      rcases fixClareza_ok h11 with ⟨hr, hfs⟩ | ⟨hr0, e, c, c', e', hg, hgc, hsetc, hsete, hfs⟩
      · -- in-range skip: only possible when the pre-fix clareza is in range,
        -- which contradicts the out-of-range input unless it was defaulted to 0
        subst hfs
        rw [hge10]
        simp only [Option.bind]
        rw [hgc10]
        simp only [Option.bind]
        rw [hge10] at hr
        simp only [Option.bind] at hr
        rw [hgc10] at hr
        simp only [Option.bind] at hr
        rcases hcl10 with hcl | hcl
        · exact hcl
        · exfalso
          rw [hcl] at hr
          rw [hbad] at hr
          simp at hr
      · rw [hg] at hge10
        injection hge10 with he
        subst he
        rw [hgc] at hgc10
        injection hgc10 with hcq
        subst hcq
        subst hfs
        rw [getA_setA_same]
        simp only [Option.bind]
        rw [jsGet_jsSet_same hsete]
        simp only [Option.bind]
        exact jsGet_jsSet_same hsetc
  · -- the spec's scenario 3
    refine ⟨_, rfl, rfl, by decide⟩

def c4wnorm : JSValue :=
  match normalizeV6Data (.obj [("pontuacaoGeral", .str "alta"),
      ("tomDeVoz", .obj [("nota", .num 42), ("manter", .arr [] []),
        ("mudar", .arr [] [])])]) with
  | .ok y => y
  | .error _ => .null

/-- Claim C4 witness: a non-numeric `pontuacaoGeral` and an out-of-range
`tomDeVoz.nota` are both reset to 0. -/
theorem C4_numeric_reset_witness :
    jsGet c4wnorm "pontuacaoGeral" = some (.num 0) ∧
    (jsGet c4wnorm "tomDeVoz").bind (jsGet · "nota") = some (.num 0) :=
  ⟨(C4_numeric_reset.1 (.obj [("pontuacaoGeral", .str "alta"),
      ("tomDeVoz", .obj [("nota", .num 42), ("manter", .arr [] []),
        ("mudar", .arr [] [])])]) c4wnorm rfl).1 (by decide),
   (C4_numeric_reset.1 (.obj [("pontuacaoGeral", .str "alta"),
      ("tomDeVoz", .obj [("nota", .num 42), ("manter", .arr [] []),
        ("mudar", .arr [] [])])]) c4wnorm rfl).2.1 (by decide)⟩

/-- Claim C6 counterexample: a supplied (present) empty `prioridadesTop3`
list is not retained — it is replaced by one invented placeholder entry
with fixed non-empty free text, which is none of the claim's enumerated
repairs (numeric reset, truncation, schema tag, or empty defaults). -/
theorem C6_counterexample :
    ∃ y, normalizeV6Data (.obj [("prioridadesTop3", .arr [] [])]) = .ok y ∧
      jsGet y "prioridadesTop3" = some (.arr [placeholderPrioridade] []) ∧
      some (.arr [placeholderPrioridade] []) ≠ (some (.arr [] []) : Option JSValue) ∧
      jsGet placeholderPrioridade "resumo" =
        some (.str "Prioridade não identificada") :=
  ⟨_, rfl, rfl, by simp [placeholderPrioridade], rfl⟩

/-- Claim C6 (amended frame property): normalization retains supplied
content except for its enumerated repairs, where "missing" must be read
as "missing or falsy" and an empty-or-falsy `prioridadesTop3` gains the
fixed placeholder entry.  Concretely: top-level keys outside the seven it
manages are untouched; `schemaVersion` is forced; a truthy
`objetivoInferido` and an in-range `pontuacaoGeral` are kept; a truthy
non-empty `prioridadesTop3` is kept, truncated to its first 3 entries
when it is an array longer than 3; each of the three sections is kept
entirely unchanged when all the sub-fields the normalizer inspects are
already truthy/in range; and inside each present truthy section, every
sub-field the normalizer does not inspect is retained, and each
inspected sub-field is retained whenever it is itself already
truthy/in-range — repairs to sibling sub-fields never disturb it
(likewise one level deeper for `jobToBeDone.avaliacao` and
`experiencia.cta`). -/
theorem C6_frame (x y : JSValue) (h : normalizeV6Data x = .ok y) :
    (∀ k, k ∉ ["schemaVersion", "objetivoInferido", "jobToBeDone", "tomDeVoz",
        "experiencia", "prioridadesTop3", "pontuacaoGeral"] →
      jsGet y k = getA (jsSpread x) k) ∧
    jsGet y "schemaVersion" = some (.str "v6") ∧
    (truthyO (getA (jsSpread x) "objetivoInferido") = true →
      jsGet y "objetivoInferido" = getA (jsSpread x) "objetivoInferido") ∧
    (numInRange (getA (jsSpread x) "pontuacaoGeral") = true →
      jsGet y "pontuacaoGeral" = getA (jsSpread x) "pontuacaoGeral") ∧
    (∀ p, getA (jsSpread x) "prioridadesTop3" = some p → jsTruthy p = true →
      lengthEqZero p = false →
      (lengthGtThree p = false → jsGet y "prioridadesTop3" = some p) ∧
      (∀ xs ps, p = .arr xs ps → jsGet y "prioridadesTop3" =
        some (if 3 < xs.length then .arr (xs.take 3) [] else .arr xs ps))) ∧
    (∀ j a, getA (jsSpread x) "jobToBeDone" = some j →
      truthyO (jsGet j "placeholderExemplo") = true →
      jsGet j "avaliacao" = some a → jsTruthy a = true →
      truthyO (jsGet a "sugestoes") = true →
      jsGet y "jobToBeDone" = some j) ∧
    (∀ t, getA (jsSpread x) "tomDeVoz" = some t →
      truthyO (jsGet t "manter") = true → truthyO (jsGet t "mudar") = true →
      numInRange (jsGet t "nota") = true →
      jsGet y "tomDeVoz" = some t) ∧
    (∀ e c, getA (jsSpread x) "experiencia" = some e →
      truthyO (jsGet e "usabilidade") = true → truthyO (jsGet e "visual") = true →
      truthyO (jsGet e "acessibilidade") = true → numInRange (jsGet e "nota") = true →
      jsGet e "cta" = some c → numInRange (jsGet c "clareza") = true →
      jsGet y "experiencia" = some e) ∧
    (∀ j, getA (jsSpread x) "jobToBeDone" = some j → jsTruthy j = true →
      ∃ j', jsGet y "jobToBeDone" = some j' ∧
        (∀ k, k ≠ "placeholderExemplo" → k ≠ "avaliacao" → jsGet j' k = jsGet j k) ∧
        (truthyO (jsGet j "placeholderExemplo") = true →
          jsGet j' "placeholderExemplo" = jsGet j "placeholderExemplo") ∧
        (∀ a, jsGet j "avaliacao" = some a → jsTruthy a = true →
          ∃ a', jsGet j' "avaliacao" = some a' ∧
            (∀ k, k ≠ "sugestoes" → jsGet a' k = jsGet a k) ∧
            (truthyO (jsGet a "sugestoes") = true →
              jsGet a' "sugestoes" = jsGet a "sugestoes"))) ∧
    (∀ t, getA (jsSpread x) "tomDeVoz" = some t → jsTruthy t = true →
      ∃ t', jsGet y "tomDeVoz" = some t' ∧
        (∀ k, k ≠ "manter" → k ≠ "mudar" → k ≠ "nota" → jsGet t' k = jsGet t k) ∧
        (truthyO (jsGet t "manter") = true → jsGet t' "manter" = jsGet t "manter") ∧
        (truthyO (jsGet t "mudar") = true → jsGet t' "mudar" = jsGet t "mudar") ∧
        (numInRange (jsGet t "nota") = true → jsGet t' "nota" = jsGet t "nota")) ∧
    (∀ e, getA (jsSpread x) "experiencia" = some e → jsTruthy e = true →
      ∃ e', jsGet y "experiencia" = some e' ∧
        (∀ k, k ≠ "usabilidade" → k ≠ "visual" → k ≠ "acessibilidade" →
          k ≠ "cta" → k ≠ "nota" → jsGet e' k = jsGet e k) ∧
        (truthyO (jsGet e "usabilidade") = true →
          jsGet e' "usabilidade" = jsGet e "usabilidade") ∧
        (truthyO (jsGet e "visual") = true → jsGet e' "visual" = jsGet e "visual") ∧
        (truthyO (jsGet e "acessibilidade") = true →
          jsGet e' "acessibilidade" = jsGet e "acessibilidade") ∧
        (numInRange (jsGet e "nota") = true → jsGet e' "nota" = jsGet e "nota") ∧
        (∀ c, jsGet e "cta" = some c → jsTruthy c = true →
          ∃ c', jsGet e' "cta" = some c' ∧
            (∀ k, k ≠ "clareza" → jsGet c' k = jsGet c k) ∧
            (numInRange (jsGet c "clareza") = true →
              jsGet c' "clareza" = jsGet c "clareza"))) := by
  unfold normalizeV6Data at h
  cases hc : normCore (jsSpread x) with
  | error e => rw [hc] at h; simp [Except.map] at h
  | ok gs =>
  rw [hc] at h
  simp only [Except.map, Except.ok.injEq] at h
  subst h
  obtain ⟨fs3, fs4, fs5, fs7, fs9, fs10, h3, h4, h5, h7, h9, h10, h11⟩ := normCore_decomp hc
  obtain ⟨o3, c3⟩ := normSection_ok h3
  obtain ⟨o4, c4⟩ := normSection_ok h4
  obtain ⟨o5, c5⟩ := normSection_ok h5
  obtain ⟨o7, c7⟩ := prioCeil_ok h7
  have o9 := fixNested_other h9
  have o10 := fixNested_other h10
  have o11 := fixClareza_other h11
  have hyg : ∀ k, jsGet (JSValue.obj gs) k = getA gs k := fun k => rfl
  refine ⟨?_, ?_, ?_, ?_, ?_, ?_, ?_, ?_, ?_, ?_, ?_⟩
  · -- untouched keys
    intro k hk
    simp only [List.mem_cons, List.mem_singleton, not_or] at hk
    obtain ⟨k1, k2, k3, k4, k5, k6, k7, -⟩ := hk
    rw [hyg, o11 _ k5, o10 _ k5, o9 _ k4, pontFix_other _ _ k7, o7 _ k6,
        prioFloor_other _ _ k6, o5 _ k5, o4 _ k4, o3 _ k3,
        objetivoFix_other _ _ k2, getA_setA_other _ _ _ _ k1]
  · -- schemaVersion
    rw [hyg, o11 _ (by decide), o10 _ (by decide), o9 _ (by decide),
        pontFix_other _ _ (by decide), o7 _ (by decide), prioFloor_other _ _ (by decide),
        o5 _ (by decide), o4 _ (by decide), o3 _ (by decide),
        objetivoFix_other _ _ (by decide)]
    exact getA_setA_same _ _ _
  · -- objetivoInferido (truthy ⇒ kept)
    intro ht
    have ht1 : truthyO (getA (setA (jsSpread x) "schemaVersion" (.str "v6"))
        "objetivoInferido") = true := by
      rw [getA_setA_other _ _ _ _ (by decide)]
      exact ht
    rw [hyg, o11 _ (by decide), o10 _ (by decide), o9 _ (by decide),
        pontFix_other _ _ (by decide), o7 _ (by decide), prioFloor_other _ _ (by decide),
        o5 _ (by decide), o4 _ (by decide), o3 _ (by decide)]
    rcases objetivoFix_key (setA (jsSpread x) "schemaVersion" (.str "v6")) with
      ⟨_, hv⟩ | ⟨hf, _⟩
    · rw [hv, getA_setA_other _ _ _ _ (by decide)]
    · rw [ht1] at hf
      simp at hf
  · -- pontuacaoGeral (in range ⇒ kept)
    intro hr
    have hback : getA fs7 "pontuacaoGeral" = getA (jsSpread x) "pontuacaoGeral" := by
      rw [o7 _ (by decide), prioFloor_other _ _ (by decide), o5 _ (by decide),
          o4 _ (by decide), o3 _ (by decide), objetivoFix_other _ _ (by decide),
          getA_setA_other _ _ _ _ (by decide)]
    rw [hyg, o11 _ (by decide), o10 _ (by decide), o9 _ (by decide)]
    rcases pontFix_key fs7 with ⟨_, hv⟩ | ⟨hf, _⟩
    · rw [hv, hback]
    · rw [hback, hr] at hf
      simp at hf
  · -- prioridadesTop3
    intro p hg ht hz
    have hback : getA fs5 "prioridadesTop3" = some p := by
      rw [o5 _ (by decide), o4 _ (by decide), o3 _ (by decide),
          objetivoFix_other _ _ (by decide), getA_setA_other _ _ _ _ (by decide)]
      exact hg
    have hfloor : prioFloor fs5 = fs5 := prioFloor_id hback ht hz
    rw [hfloor] at c7 o7
    have hchain : ∀ v, getA fs7 "prioridadesTop3" = v →
        getA gs "prioridadesTop3" = v := by
      intro v hv
      rw [o11 _ (by decide), o10 _ (by decide), o9 _ (by decide),
          pontFix_other _ _ (by decide)]
      exact hv
    rcases c7 with ⟨hnone, _⟩ | ⟨p0, hgp0, hcase⟩
    · rw [hback] at hnone
      exact absurd hnone (by simp)
    · rw [hback] at hgp0
      injection hgp0 with hp0
      subst hp0
      constructor
      · intro hgt
        rcases hcase with ⟨_, hfs⟩ | ⟨hgt', _⟩
        · subst hfs
          rw [hyg]
          exact hchain _ hback
        · rw [hgt] at hgt'
          simp at hgt'
      · intro xs ps hp
        subst hp
        by_cases hlen : 3 < xs.length
        · have hgt : lengthGtThree (.arr xs ps) = true := by
            simp only [lengthGtThree, jsLengthProp, jsToNumber, gtThreeNum,
              decide_eq_true_eq]
            exact_mod_cast hlen
          rcases hcase with ⟨hgt', _⟩ | ⟨_, p', hsl, hg'⟩
          · rw [hgt] at hgt'
            simp at hgt'
          · have hp' : p' = .arr (xs.take 3) [] := by
              simp only [jsSliceThree, Except.ok.injEq] at hsl
              exact hsl.symm
            subst hp'
            rw [hyg, if_pos hlen]
            exact hchain _ hg'
        · have hgt : lengthGtThree (.arr xs ps) = false := by
            simp only [lengthGtThree, jsLengthProp, jsToNumber, gtThreeNum,
              decide_eq_false_iff_not, not_lt]
            exact_mod_cast Nat.le_of_not_lt hlen
          rcases hcase with ⟨_, hfs⟩ | ⟨hgt', _⟩
          · subst hfs
            rw [hyg, if_neg hlen]
            exact hchain _ hback
          · rw [hgt] at hgt'
            simp at hgt'
  · -- jobToBeDone (fully regular ⇒ kept)
    intro j a hg hph hav hta hsug
    have hback : getA (objetivoFix (setA (jsSpread x) "schemaVersion" (.str "v6")))
        "jobToBeDone" = some j := by
      rw [objetivoFix_other _ _ (by decide), getA_setA_other _ _ _ _ (by decide)]
      exact hg
    have htj : jsTruthy j = true :=
      objOrArr_truthy (truthyO_some_shape hph)
    have hid := normSection_id defaultJobToBeDone hback htj
      (normJtbd_id (.inl hph) hav hta hsug)
    rw [hid] at h3
    injection h3 with h3eq
    subst h3eq
    rw [hyg, o11 _ (by decide), o10 _ (by decide), o9 _ (by decide),
        pontFix_other _ _ (by decide), o7 _ (by decide), prioFloor_other _ _ (by decide),
        o5 _ (by decide), o4 _ (by decide)]
    exact hback
  · -- tomDeVoz (fully regular ⇒ kept)
    intro t hg hman hmud hnota
    have hback : getA fs3 "tomDeVoz" = some t := by
      rw [o3 _ (by decide), objetivoFix_other _ _ (by decide),
          getA_setA_other _ _ _ _ (by decide)]
      exact hg
    have htt : jsTruthy t = true := objOrArr_truthy (truthyO_some_shape hman)
    have hid := normSection_id defaultTomDeVoz hback htt (normTom_id hman hmud)
    rw [hid] at h4
    injection h4 with h4eq
    subst h4eq
    have hback8 : getA (pontFix fs7) "tomDeVoz" = some t := by
      rw [pontFix_other _ _ (by decide), o7 _ (by decide),
          prioFloor_other _ _ (by decide), o5 _ (by decide)]
      exact hback
    rcases fixNested_ok h9 with ⟨_, hfs⟩ | ⟨hf, _⟩
    · subst hfs
      rw [hyg, o11 _ (by decide), o10 _ (by decide)]
      exact hback8
    · rw [hback8] at hf
      simp only [Option.bind] at hf
      rw [hnota] at hf
      simp at hf
  · -- experiencia (fully regular ⇒ kept)
    intro e c hg hu hv hac hnota hcta hcl
    have hback : getA fs4 "experiencia" = some e := by
      rw [o4 _ (by decide), o3 _ (by decide), objetivoFix_other _ _ (by decide),
          getA_setA_other _ _ _ _ (by decide)]
      exact hg
    have hte : jsTruthy e = true := objOrArr_truthy (truthyO_some_shape hu)
    have htc : jsTruthy c = true := by
      obtain ⟨q, hq, _, _⟩ := numInRange_some hcl
      exact objOrArr_truthy (jsGet_some_shape hq)
    have hid := normSection_id defaultExperiencia hback hte
      (normExp_id hu hv hac (by rw [hcta]; exact htc))
    rw [hid] at h5
    injection h5 with h5eq
    subst h5eq
    have hback9 : getA fs9 "experiencia" = some e := by
      rw [o9 _ (by decide), pontFix_other _ _ (by decide), o7 _ (by decide),
          prioFloor_other _ _ (by decide)]
      exact hback
    rcases fixNested_ok h10 with ⟨_, hfs⟩ | ⟨hf, _⟩
    · subst hfs
      rcases fixClareza_ok h11 with ⟨_, hfs'⟩ | ⟨hf', _⟩
      · subst hfs'
        rw [hyg]
        exact hback9
      · rw [hback9] at hf'
        simp only [Option.bind] at hf'
        rw [hcta] at hf'
        simp only [Option.bind] at hf'
        rw [hcl] at hf'
        simp at hf'
    · rw [hback9] at hf
      simp only [Option.bind] at hf
      rw [hnota] at hf
      simp at hf
  · -- jobToBeDone sub-field frame
    intro j hg htj
    have hback2 : getA (objetivoFix (setA (jsSpread x) "schemaVersion" (.str "v6")))
        "jobToBeDone" = some j := by
      rw [objetivoFix_other _ _ (by decide), getA_setA_other _ _ _ _ (by decide)]
      exact hg
    rcases c3 with ⟨hf, _⟩ | ⟨v, j2, hg0, htv, hsub, hval⟩
    · rw [hback2] at hf
      simp [truthyO, htj] at hf
    · rw [hback2] at hg0
      injection hg0 with hv
      subst hv
      obtain ⟨_, hoth, hph, hav⟩ := normJtbd_ok hsub
      refine ⟨j2, ?_, hoth, ?_, ?_⟩
      · rw [hyg, o11 _ (by decide), o10 _ (by decide), o9 _ (by decide),
          pontFix_other _ _ (by decide), o7 _ (by decide),
          prioFloor_other _ _ (by decide), o5 _ (by decide), o4 _ (by decide)]
        exact hval
      · intro hp
        rcases hph with ⟨_, hv2⟩ | ⟨hf2, _⟩
        · exact hv2
        · rw [hp] at hf2
          simp at hf2
      · intro a hga hta
        rcases hav with ⟨hf2, _⟩ | ⟨a0, a', hga0, _, hj2av, _, hotha, hsug⟩
        · rw [hga] at hf2
          simp [truthyO, hta] at hf2
        · rw [hga] at hga0
          injection hga0 with ha0
          subst ha0
          refine ⟨a', hj2av, hotha, ?_⟩
          intro hs
          rcases hsug with ⟨_, hv3⟩ | ⟨hf3, _⟩
          · exact hv3
          · rw [hs] at hf3
            simp at hf3
  · -- tomDeVoz sub-field frame
    intro t hg htt
    have hback3 : getA fs3 "tomDeVoz" = some t := by
      rw [o3 _ (by decide), objetivoFix_other _ _ (by decide),
        getA_setA_other _ _ _ _ (by decide)]
      exact hg
    rcases c4 with ⟨hf, _⟩ | ⟨v, t2, hg0, htv, hsub, hval⟩
    · rw [hback3] at hf
      simp [truthyO, htt] at hf
    · rw [hback3] at hg0
      injection hg0 with hv
      subst hv
      obtain ⟨_, hoth, hman, hmud⟩ := normTom_ok hsub
      have hnota2 : jsGet t2 "nota" = jsGet t "nota" := hoth _ (by decide) (by decide)
      have hback8 : getA (pontFix fs7) "tomDeVoz" = some t2 := by
        rw [pontFix_other _ _ (by decide), o7 _ (by decide),
          prioFloor_other _ _ (by decide), o5 _ (by decide)]
        exact hval
      rcases fixNested_ok h9 with ⟨hr9, hfs9⟩ | ⟨hr9, sv, sv', hgsv, hset, hfs9⟩
      · subst hfs9
        refine ⟨t2, ?_, fun k k1 k2 _ => hoth k k1 k2, ?_, ?_, fun _ => hnota2⟩
        · rw [hyg, o11 _ (by decide), o10 _ (by decide)]
          exact hback8
        · intro hm
          rcases hman with ⟨_, hv2⟩ | ⟨hf2, _⟩
          · exact hv2
          · rw [hm] at hf2
            simp at hf2
        · intro hm
          rcases hmud with ⟨_, hv2⟩ | ⟨hf2, _⟩
          · exact hv2
          · rw [hm] at hf2
            simp at hf2
      · subst hfs9
        rw [hback8] at hgsv
        injection hgsv with hsv
        subst hsv
        refine ⟨sv', ?_, ?_, ?_, ?_, ?_⟩
        · rw [hyg, o11 _ (by decide), o10 _ (by decide)]
          exact getA_setA_same _ _ _
        · intro k k1 k2 k3
          rw [jsGet_jsSet_other _ hset k3]
          exact hoth k k1 k2
        · intro hm
          rw [jsGet_jsSet_other _ hset (by decide)]
          rcases hman with ⟨_, hv2⟩ | ⟨hf2, _⟩
          · exact hv2
          · rw [hm] at hf2
            simp at hf2
        · intro hm
          rw [jsGet_jsSet_other _ hset (by decide)]
          rcases hmud with ⟨_, hv2⟩ | ⟨hf2, _⟩
          · exact hv2
          · rw [hm] at hf2
            simp at hf2
        · intro hn
          exfalso
          rw [hback8] at hr9
          simp only [Option.bind] at hr9
          rw [hnota2, hn] at hr9
          simp at hr9
  · -- experiencia sub-field frame
    intro e hg hte
    have hback4 : getA fs4 "experiencia" = some e := by
      rw [o4 _ (by decide), o3 _ (by decide), objetivoFix_other _ _ (by decide),
        getA_setA_other _ _ _ _ (by decide)]
      exact hg
    rcases c5 with ⟨hf, _⟩ | ⟨v, e2, hg0, htv, hsub, hval⟩
    · rw [hback4] at hf
      simp [truthyO, hte] at hf
    · rw [hback4] at hg0
      injection hg0 with hv
      subst hv
      obtain ⟨_, hoth, husa, hvis, hace, hcta⟩ := normExp_ok hsub
      have hnota2 : jsGet e2 "nota" = jsGet e "nota" :=
        hoth _ (by decide) (by decide) (by decide) (by decide)
      have hback9 : getA fs9 "experiencia" = some e2 := by
        rw [o9 _ (by decide), pontFix_other _ _ (by decide), o7 _ (by decide),
          prioFloor_other _ _ (by decide)]
        exact hval
      obtain ⟨e3, hge3, hothe3, hnotae3⟩ :
          ∃ e3, getA fs10 "experiencia" = some e3 ∧
            (∀ k, k ≠ "nota" → jsGet e3 k = jsGet e2 k) ∧
            (numInRange (jsGet e "nota") = true →
              jsGet e3 "nota" = jsGet e2 "nota") := by
        rcases fixNested_ok h10 with ⟨hr10, hfs10⟩ | ⟨hr10, sv, sv', hgsv, hset, hfs10⟩
        · subst hfs10
          exact ⟨e2, hback9, fun _ _ => rfl, fun _ => rfl⟩
        · subst hfs10
          rw [hback9] at hgsv
          injection hgsv with hsv
          subst hsv
          refine ⟨sv', getA_setA_same _ _ _,
            fun k hk => jsGet_jsSet_other _ hset hk, ?_⟩
          intro hn
          exfalso
          rw [hback9] at hr10
          simp only [Option.bind] at hr10
          rw [hnota2, hn] at hr10
          simp at hr10
      have hctapres : ∀ c, jsGet e "cta" = some c → jsTruthy c = true →
          jsGet e3 "cta" = some c := by
        intro c hgc htc
        rw [hothe3 _ (by decide)]
        rcases hcta with ⟨_, hv2⟩ | ⟨hf2, _⟩
        · rw [hv2, hgc]
        · rw [hgc] at hf2
          simp [truthyO, htc] at hf2
      rcases fixClareza_ok h11 with ⟨hr11, hfs11⟩ |
        ⟨hr11, e0, c0, c0', e0', hge0, hgc0, hsetc, hsete, hfs11⟩
      · subst hfs11
        refine ⟨e3, ?_, ?_, ?_, ?_, ?_, ?_, ?_⟩
        · rw [hyg]
          exact hge3
        · intro k k1 k2 k3 k4 k5
          rw [hothe3 k k5]
          exact hoth k k1 k2 k3 k4
        · intro hm
          rw [hothe3 _ (by decide)]
          rcases husa with ⟨_, hv2⟩ | ⟨hf2, _⟩
          · exact hv2
          · rw [hm] at hf2
            simp at hf2
        · intro hm
          rw [hothe3 _ (by decide)]
          rcases hvis with ⟨_, hv2⟩ | ⟨hf2, _⟩
          · exact hv2
          · rw [hm] at hf2
            simp at hf2
        · intro hm
          rw [hothe3 _ (by decide)]
          rcases hace with ⟨_, hv2⟩ | ⟨hf2, _⟩
          · exact hv2
          · rw [hm] at hf2
            simp at hf2
        · intro hn
          rw [hnotae3 hn]
          exact hnota2
        · intro c hgc htc
          exact ⟨c, hctapres c hgc htc, fun _ _ => rfl, fun _ => rfl⟩
      · subst hfs11
        rw [hge3] at hge0
        injection hge0 with he0
        subst he0
        refine ⟨e0', ?_, ?_, ?_, ?_, ?_, ?_, ?_⟩
        · rw [hyg]
          exact getA_setA_same _ _ _
        · intro k k1 k2 k3 k4 k5
          rw [jsGet_jsSet_other _ hsete k4, hothe3 k k5]
          exact hoth k k1 k2 k3 k4
        · intro hm
          rw [jsGet_jsSet_other _ hsete (by decide), hothe3 _ (by decide)]
          rcases husa with ⟨_, hv2⟩ | ⟨hf2, _⟩
          · exact hv2
          · rw [hm] at hf2
            simp at hf2
        · intro hm
          rw [jsGet_jsSet_other _ hsete (by decide), hothe3 _ (by decide)]
          rcases hvis with ⟨_, hv2⟩ | ⟨hf2, _⟩
          · exact hv2
          · rw [hm] at hf2
            simp at hf2
        · intro hm
          rw [jsGet_jsSet_other _ hsete (by decide), hothe3 _ (by decide)]
          rcases hace with ⟨_, hv2⟩ | ⟨hf2, _⟩
          · exact hv2
          · rw [hm] at hf2
            simp at hf2
        · intro hn
          rw [jsGet_jsSet_other _ hsete (by decide), hnotae3 hn]
          exact hnota2
        · intro c hgc htc
          have hpres := hctapres c hgc htc
          have hc0 : c0 = c := by
            rw [hpres] at hgc0
            injection hgc0 with hcc
            exact hcc.symm
          refine ⟨c0', jsGet_jsSet_same hsete, ?_, ?_⟩
          · intro k hk
            rw [jsGet_jsSet_other _ hsetc hk, hc0]
          · intro hcl
            exfalso
            rw [hge3] at hr11
            simp only [Option.bind] at hr11
            rw [hpres] at hr11
            simp only [Option.bind] at hr11
            rw [hcl] at hr11
            simp at hr11

def c6tom : JSValue :=
  .obj [("nota", .num 8), ("manter", .arr [.str "m"] []), ("mudar", .arr [.str "x"] [])]

def c6doc : JSValue :=
  .obj [("foo", .num 7), ("tomDeVoz", c6tom),
        ("prioridadesTop3", .arr [.str "a", .str "b", .str "c", .str "d"] [])]

def c6norm : JSValue :=
  match normalizeV6Data c6doc with
  | .ok y => y
  | .error _ => .null

/-- A `tomDeVoz` needing repairs (`manter`/`mudar` get defaulted) while
`nota` is in range and `extra` is unknown to the normalizer. -/
def c6mixtom : JSValue := .obj [("nota", .num 5), ("extra", .str "e")]

def c6mix : JSValue := .obj [("tomDeVoz", c6mixtom)]

def c6mixnorm : JSValue :=
  match normalizeV6Data c6mix with
  | .ok y => y
  | .error _ => .null

/-- Claim C6 witness: an unknown key survives untouched, a fully regular
`tomDeVoz` survives entirely unchanged, a 4-element `prioridadesTop3` is
truncated to its first 3 entries, and inside a `tomDeVoz` whose
`manter`/`mudar` are being defaulted the untouched `extra` and in-range
`nota` sub-fields are retained. -/
theorem C6_frame_witness :
    normalizeV6Data c6doc = .ok c6norm ∧ jsGet c6norm "foo" = some (.num 7) ∧
    jsGet c6norm "tomDeVoz" = some c6tom ∧
    jsGet c6norm "prioridadesTop3" = some (.arr [.str "a", .str "b", .str "c"] []) ∧
    (∃ t', jsGet c6mixnorm "tomDeVoz" = some t' ∧
      jsGet t' "extra" = some (.str "e") ∧ jsGet t' "nota" = some (.num 5)) := by
  refine ⟨rfl, ?_, ?_, ?_, ?_⟩
  · exact (C6_frame c6doc c6norm rfl).1 "foo" (by decide)
  · exact (C6_frame c6doc c6norm rfl).2.2.2.2.2.2.1 c6tom rfl (by decide) (by decide)
      (by decide)
  · exact ((C6_frame c6doc c6norm rfl).2.2.2.2.1 _ rfl (by decide) (by decide)).2
      [.str "a", .str "b", .str "c", .str "d"] [] rfl
  · obtain ⟨t', hyt, hoth, _, _, hnota⟩ :=
      (C6_frame c6mix c6mixnorm rfl).2.2.2.2.2.2.2.2.2.1 c6mixtom rfl rfl
    refine ⟨t', hyt, ?_, ?_⟩
    · rw [hoth "extra" (by decide) (by decide) (by decide)]
      rfl
    · rw [hnota (by decide)]
      rfl

/-! ## Claim C10: throwing behaviour of `normalizeV6Data` -/

theorem jsGet_none_of_prim {v : JSValue} (h : ¬ objOrArr v) (k : String) :
    jsGet v k = none := by
  cases v <;> first
    | rfl
    | (exfalso; exact h (.inl ⟨_, rfl⟩))
    | (exfalso; exact h (.inr ⟨_, _, rfl⟩))

theorem normJtbd_error {v : JSValue} (h : ¬ objOrArr v) : normJtbd v = .error () := by
  unfold normJtbd ensureField
  rw [jsGet_none_of_prim h]
  simp only [truthyO, Bool.false_eq_true, if_false]
  rw [jsSet_error_shape h]
  rfl

theorem normTom_error {v : JSValue} (h : ¬ objOrArr v) : normTom v = .error () := by
  unfold normTom ensureField
  rw [jsGet_none_of_prim h]
  simp only [truthyO, Bool.false_eq_true, if_false]
  rw [jsSet_error_shape h]
  rfl

theorem normExp_error {v : JSValue} (h : ¬ objOrArr v) : normExp v = .error () := by
  unfold normExp ensureField
  rw [jsGet_none_of_prim h]
  simp only [truthyO, Bool.false_eq_true, if_false]
  rw [jsSet_error_shape h]
  rfl

theorem ensureField_isOk {v : JSValue} (h : objOrArr v) (k : String) (w : JSValue) :
    ∃ v', ensureField v k w = .ok v' ∧ objOrArr v' := by
  unfold ensureField
  by_cases ht : truthyO (jsGet v k) = true
  · exact ⟨v, by rw [if_pos ht]; rfl, h⟩
  · rcases h with ⟨fs, rfl⟩ | ⟨xs, ps, rfl⟩
    · exact ⟨_, by rw [if_neg ht]; rfl, .inl ⟨_, rfl⟩⟩
    · exact ⟨_, by rw [if_neg ht]; rfl, .inr ⟨_, _, rfl⟩⟩

theorem jsSet_isOk_shape {v : JSValue} (h : objOrArr v) (k : String) (w : JSValue) :
    ∃ v', jsSet v k w = .ok v' ∧ objOrArr v' := by
  rcases h with ⟨fs, rfl⟩ | ⟨xs, ps, rfl⟩
  · exact ⟨_, rfl, .inl ⟨_, rfl⟩⟩
  · exact ⟨_, rfl, .inr ⟨_, _, rfl⟩⟩

theorem normTom_isOk {t : JSValue} (h : objOrArr t) : ∃ t', normTom t = .ok t' := by
  unfold normTom
  obtain ⟨t1, h1, hs1⟩ := ensureField_isOk h "manter" (.arr [] [])
  obtain ⟨t2, h2, _⟩ := ensureField_isOk hs1 "mudar" (.arr [] [])
  exact ⟨t2, by rw [h1]; simpa [Bind.bind, Except.bind] using h2⟩

theorem normExp_isOk {e : JSValue} (h : objOrArr e) : ∃ e', normExp e = .ok e' := by
  unfold normExp
  obtain ⟨e1, h1, hs1⟩ := ensureField_isOk h "usabilidade" (.arr [] [])
  obtain ⟨e2, h2, hs2⟩ := ensureField_isOk hs1 "visual" (.arr [] [])
  obtain ⟨e3, h3, hs3⟩ := ensureField_isOk hs2 "acessibilidade" (.arr [] [])
  obtain ⟨e4, h4, _⟩ := ensureField_isOk hs3 "cta" defaultCta
  refine ⟨e4, ?_⟩
  rw [h1]
  simp only [Bind.bind, Except.bind]
  rw [h2]
  simp only
  rw [h3]
  simp only
  exact h4

theorem normJtbd_isOk {j : JSValue} (h : objOrArr j)
    (hav : jsGet j "avaliacao" = none ∨
      ∃ a, jsGet j "avaliacao" = some a ∧ (jsTruthy a = false ∨ objOrArr a)) :
    ∃ j', normJtbd j = .ok j' := by
  unfold normJtbd
  obtain ⟨j1, h1, hs1⟩ := ensureField_isOk h "placeholderExemplo" (.str "")
  have hav1 : jsGet j1 "avaliacao" = jsGet j "avaliacao" :=
    (ensure_step h1).1 _ (by decide)
  rw [h1]
  simp only [Bind.bind, Except.bind]
  rw [hav1]
  rcases hav with hnone | ⟨a, hga, hcase⟩
  · rw [hnone]
    obtain ⟨j2, h2, _⟩ := jsSet_isOk_shape hs1 "avaliacao" defaultAvaliacao
    exact ⟨j2, h2⟩
  · rw [hga]
    dsimp only
    rcases hcase with hft | hsa
    · rw [if_neg (by rw [hft]; simp)]
      obtain ⟨j2, h2, _⟩ := jsSet_isOk_shape hs1 "avaliacao" defaultAvaliacao
      exact ⟨j2, h2⟩
    · by_cases hta : jsTruthy a = true
      · rw [if_pos hta]
        obtain ⟨a1, ha1, _⟩ := ensureField_isOk hsa "sugestoes" (.arr [] [])
        rw [ha1]
        simp only
        obtain ⟨j2, h2, _⟩ := jsSet_isOk_shape hs1 "avaliacao" a1
        exact ⟨j2, h2⟩
      · rw [if_neg hta]
        obtain ⟨j2, h2, _⟩ := jsSet_isOk_shape hs1 "avaliacao" defaultAvaliacao
        exact ⟨j2, h2⟩

theorem normSection_isOk {fs : Fields} {key : String} (dflt : JSValue)
    {sub : JSValue → Except Unit JSValue}
    (h : truthyO (getA fs key) = false ∨
      ∃ v v', getA fs key = some v ∧ sub v = .ok v') :
    ∃ fs', normSection fs key dflt sub = .ok fs' := by
  unfold normSection
  cases hk : getA fs key with
  | none => exact ⟨_, rfl⟩
  | some v =>
    dsimp only
    by_cases ht : jsTruthy v = true
    · rcases h with hf | ⟨v0, v', hg0, hsub⟩
      · rw [hk] at hf
        simp [truthyO, ht] at hf
      · rw [hk] at hg0
        injection hg0 with hv0
        subst hv0
        rw [if_pos ht, hsub]
        exact ⟨_, rfl⟩
    · rw [if_neg ht]
      exact ⟨_, rfl⟩

theorem prioCeil_isOk {fs : Fields}
    (h : ∀ pfs, getA fs "prioridadesTop3" = some (.obj pfs) →
      lengthGtThree (.obj pfs) = false) :
    ∃ fs', prioCeil fs = .ok fs' := by
  unfold prioCeil
  cases hk : getA fs "prioridadesTop3" with
  | none => exact ⟨_, rfl⟩
  | some p =>
    dsimp only
    by_cases hgt : lengthGtThree p = true
    · rw [if_pos hgt]
      cases p with
      | arr xs ps => exact ⟨_, rfl⟩
      | str st => exact ⟨_, rfl⟩
      | obj pfs => rw [h pfs hk] at hgt; simp at hgt
      | num q => simp [lengthGtThree, jsLengthProp] at hgt
      | bool b => simp [lengthGtThree, jsLengthProp] at hgt
      | null => simp [lengthGtThree, jsLengthProp] at hgt
    · rw [if_neg hgt]
      exact ⟨_, rfl⟩

theorem fixNested_isOk {fs : Fields} {sec : String} (sub : String) {sv : JSValue}
    (hg : getA fs sec = some sv) (hs : objOrArr sv) :
    ∃ fs', fixNested fs sec sub = .ok fs' := by
  unfold fixNested
  dsimp only
  by_cases hr : numInRange ((getA fs sec).bind (jsGet · sub)) = true
  · rw [if_pos hr]
    exact ⟨_, rfl⟩
  · rw [if_neg hr, hg]
    dsimp only
    obtain ⟨sv', hset, _⟩ := jsSet_isOk_shape hs sub (.num 0)
    rw [hset]
    exact ⟨_, rfl⟩

theorem fixClareza_isOk {fs : Fields} {e : JSValue}
    (hg : getA fs "experiencia" = some e)
    (hc : ∃ c, jsGet e "cta" = some c ∧ objOrArr c) :
    ∃ fs', fixClareza fs = .ok fs' := by
  unfold fixClareza
  dsimp only
  by_cases hr : numInRange (((getA fs "experiencia").bind (jsGet · "cta")).bind
      (jsGet · "clareza")) = true
  · rw [if_pos hr]
    exact ⟨_, rfl⟩
  · rw [if_neg hr, hg]
    dsimp only
    obtain ⟨c, hgc, hsc⟩ := hc
    rw [hgc]
    dsimp only
    obtain ⟨c', hset, _⟩ := jsSet_isOk_shape hsc "clareza" (.num 0)
    rw [hset]
    simp only [Bind.bind, Except.bind]
    have hse : objOrArr e := jsGet_some_shape hgc
    obtain ⟨e', hset', _⟩ := jsSet_isOk_shape hse "cta" c'
    rw [hset']
    exact ⟨_, rfl⟩

theorem prioFloor_cases (fs : Fields) :
    prioFloor fs = fs ∨
    getA (prioFloor fs) "prioridadesTop3" = some (.arr [placeholderPrioridade] []) := by
  unfold prioFloor
  split
  · exact .inl rfl
  · exact .inr (getA_setA_same _ _ _)

theorem prioCeil_other {fs fs' : Fields} (h : prioCeil fs = .ok fs') :
    ∀ k, k ≠ "prioridadesTop3" → getA fs' k = getA fs k := by
  intro k hk
  unfold prioCeil at h
  cases hg : getA fs "prioridadesTop3" with
  | none =>
    rw [hg] at h
    simp only [pure, Except.pure, Except.ok.injEq] at h
    subst h
    rfl
  | some v =>
    rw [hg] at h
    dsimp only at h
    by_cases hgt : lengthGtThree v = true
    · rw [if_pos hgt] at h
      cases hs : jsSliceThree v with
      | error e => rw [hs] at h; simp [Bind.bind, Except.bind] at h
      | ok v' =>
        rw [hs] at h
        simp only [Bind.bind, Except.bind, pure, Except.pure, Except.ok.injEq] at h
        subst h
        exact getA_setA_other _ _ _ _ hk
    · rw [if_neg hgt] at h
      simp only [pure, Except.pure, Except.ok.injEq] at h
      subst h
      rfl

theorem normCore_build {fs0 fs3 fs4 fs5 fs7 fs9 fs10 gs : Fields}
    (h3 : normSection (objetivoFix (setA fs0 "schemaVersion" (.str "v6")))
      "jobToBeDone" defaultJobToBeDone normJtbd = .ok fs3)
    (h4 : normSection fs3 "tomDeVoz" defaultTomDeVoz normTom = .ok fs4)
    (h5 : normSection fs4 "experiencia" defaultExperiencia normExp = .ok fs5)
    (h7 : prioCeil (prioFloor fs5) = .ok fs7)
    (h9 : fixNested (pontFix fs7) "tomDeVoz" "nota" = .ok fs9)
    (h10 : fixNested fs9 "experiencia" "nota" = .ok fs10)
    (h11 : fixClareza fs10 = .ok gs) :
    normCore fs0 = .ok gs := by
  unfold normCore
  dsimp only
  rw [h3]
  simp only [Bind.bind, Except.bind]
  rw [h4]
  simp only
  rw [h5]
  simp only
  rw [h7]
  simp only
  rw [h9]
  simp only
  rw [h10]
  simp only
  exact h11

/-- Claim C10 counterexample to its no-throw half: an input whose three
sections are all absent or objects can still make `normalizeV6Data`
throw — a truthy primitive `experiencia.cta` throws at the `clareza`
reset, and a non-array object `prioridadesTop3` whose `length` property
compares greater than 3 (numeric `5`, or the string `"10"` via the
relational comparison's `ToNumber` coercion) throws at `.slice(0, 3)`. -/
theorem C10_counterexample :
    normalizeV6Data (.obj [("experiencia", .obj [("cta", .num 5)])]) = .error () ∧
    normalizeV6Data (.obj [("prioridadesTop3", .obj [("length", .num 5)])]) = .error () ∧
    normalizeV6Data (.obj [("prioridadesTop3", .obj [("length", .str "10")])])
      = .error () :=
  ⟨rfl, rfl, rfl⟩

/-- Claim C10 (amended): when one of the top-level sections `jobToBeDone`,
`tomDeVoz` or `experiencia` of the spread input is a truthy non-object
(a non-empty string, a non-zero number, or `true`), `normalizeV6Data`
throws, and `processAnalysis` then emits the generic analysis error event
(whose payload carries no `code`) rather than an `LLM_SCHEMA_VIOLATION`
error; and `normalizeV6Data` returns without throwing whenever each of
these sections is absent, falsy, or an object (array included) — provided
additionally that a truthy `jobToBeDone.avaliacao` and a truthy
`experiencia.cta` are themselves objects, and that `prioridadesTop3` is
not a non-array object whose `length` property makes `.length > 3` true
under the JS abstract relational comparison (`ToNumber` coercion of the
`length` value — so `{length: "10"}` and `{length: [10]}` throw just
like `{length: 10}`, while `{length: "2"}` or `{length: {}}` do not). -/
theorem C10_section_type_errors :
    (∀ (x v : JSValue) (key : String),
      (key = "jobToBeDone" ∨ key = "tomDeVoz" ∨ key = "experiencia") →
      getA (jsSpread x) key = some v → jsTruthy v = true → ¬ objOrArr v →
      normalizeV6Data x = .error ()) ∧
    (∀ (s : String) (d v : JSValue) (key : String), s ≠ "" →
      (key = "jobToBeDone" ∨ key = "tomDeVoz" ∨ key = "experiencia") →
      getA (jsSpread d) key = some v → jsTruthy v = true → ¬ objOrArr v →
      processAnalysis ⟨some (), some (), .content s, .parsed d⟩ =
        progressAction "configuracao" "Carregando configurações..." ++
        (progressAction "manual" "Carregando manual da marca..." ++
        (progressAction "prompt" "Preparando análise..." ++
        progressAction "api" "Analisando com IA..." ++
        (progressAction "processando" "Processando resultado..." ++
        sendErrorActions (genericAnalysisError typeErrorMessage)))) ∧
      (genericAnalysisError typeErrorMessage).code = none) ∧
    (∀ x : JSValue,
      (truthyO (getA (jsSpread x) "jobToBeDone") = false ∨
        ∃ j, getA (jsSpread x) "jobToBeDone" = some j ∧ objOrArr j ∧
          (jsGet j "avaliacao" = none ∨
            ∃ a, jsGet j "avaliacao" = some a ∧ (jsTruthy a = false ∨ objOrArr a))) →
      (truthyO (getA (jsSpread x) "tomDeVoz") = false ∨
        ∃ t, getA (jsSpread x) "tomDeVoz" = some t ∧ objOrArr t) →
      (truthyO (getA (jsSpread x) "experiencia") = false ∨
        ∃ e, getA (jsSpread x) "experiencia" = some e ∧ objOrArr e ∧
          (jsGet e "cta" = none ∨
            ∃ c, jsGet e "cta" = some c ∧ (jsTruthy c = false ∨ objOrArr c))) →
      (∀ pfs, getA (jsSpread x) "prioridadesTop3" = some (.obj pfs) →
        lengthGtThree (.obj pfs) = false) →
      ∃ y, normalizeV6Data x = .ok y) := by
  have neg : ∀ (x v : JSValue) (key : String),
      (key = "jobToBeDone" ∨ key = "tomDeVoz" ∨ key = "experiencia") →
      getA (jsSpread x) key = some v → jsTruthy v = true → ¬ objOrArr v →
      normalizeV6Data x = .error () := by
    intro x v key hkey hg ht hshape
    unfold normalizeV6Data
    cases hres : normCore (jsSpread x) with
    | error e => cases e; rfl
    | ok gs =>
      exfalso
      obtain ⟨fs3, fs4, fs5, fs7, fs9, fs10, h3, h4, h5, h7, h9, h10, h11⟩ :=
        normCore_decomp hres
      rcases hkey with rfl | rfl | rfl
      · have h2 : getA (objetivoFix (setA (jsSpread x) "schemaVersion" (.str "v6")))
            "jobToBeDone" = some v := by
          rw [objetivoFix_other _ _ (by decide), getA_setA_other _ _ _ _ (by decide), hg]
        rcases (normSection_ok h3).2 with ⟨hf, _⟩ | ⟨v0, v', hg0, _, hsub, _⟩
        · rw [h2] at hf
          simp [truthyO, ht] at hf
        · rw [h2] at hg0
          injection hg0 with hv
          subst hv
          rw [normJtbd_error hshape] at hsub
          simp at hsub
      · have h2 : getA fs3 "tomDeVoz" = some v := by
          rw [(normSection_ok h3).1 _ (by decide), objetivoFix_other _ _ (by decide),
            getA_setA_other _ _ _ _ (by decide), hg]
        rcases (normSection_ok h4).2 with ⟨hf, _⟩ | ⟨v0, v', hg0, _, hsub, _⟩
        · rw [h2] at hf
          simp [truthyO, ht] at hf
        · rw [h2] at hg0
          injection hg0 with hv
          subst hv
          rw [normTom_error hshape] at hsub
          simp at hsub
      · have h2 : getA fs4 "experiencia" = some v := by
          rw [(normSection_ok h4).1 _ (by decide), (normSection_ok h3).1 _ (by decide),
            objetivoFix_other _ _ (by decide), getA_setA_other _ _ _ _ (by decide), hg]
        rcases (normSection_ok h5).2 with ⟨hf, _⟩ | ⟨v0, v', hg0, _, hsub, _⟩
        · rw [h2] at hf
          simp [truthyO, ht] at hf
        · rw [h2] at hg0
          injection hg0 with hv
          subst hv
          rw [normExp_error hshape] at hsub
          simp at hsub
  refine ⟨neg, ?_, ?_⟩
  · intro s d v key hs hkey hg ht hshape
    refine ⟨?_, rfl⟩
    have hn := neg d v key hkey hg ht hshape
    simp only [processAnalysis]
    rw [if_neg hs, hn]
  · intro x hj htm he hp
    have t2 : ∀ k, k ≠ "objetivoInferido" → k ≠ "schemaVersion" →
        getA (objetivoFix (setA (jsSpread x) "schemaVersion" (.str "v6"))) k
          = getA (jsSpread x) k := by
      intro k h1 h2
      rw [objetivoFix_other _ _ h1, getA_setA_other _ _ _ _ h2]
    have hsec1 : truthyO (getA (objetivoFix (setA (jsSpread x) "schemaVersion"
          (.str "v6"))) "jobToBeDone") = false ∨
        ∃ v v', getA (objetivoFix (setA (jsSpread x) "schemaVersion" (.str "v6")))
          "jobToBeDone" = some v ∧ normJtbd v = .ok v' := by
      rcases hj with hf | ⟨j, hg, hsj, hav⟩
      · exact .inl (by rw [t2 _ (by decide) (by decide)]; exact hf)
      · obtain ⟨j', hok⟩ := normJtbd_isOk hsj hav
        exact .inr ⟨j, j', by rw [t2 _ (by decide) (by decide)]; exact hg, hok⟩
    obtain ⟨fs3, h3⟩ := normSection_isOk defaultJobToBeDone hsec1
    have t3 : ∀ k, k ≠ "jobToBeDone" →
        getA fs3 k = getA (objetivoFix (setA (jsSpread x) "schemaVersion"
          (.str "v6"))) k := (normSection_ok h3).1
    have hsec2 : truthyO (getA fs3 "tomDeVoz") = false ∨
        ∃ v v', getA fs3 "tomDeVoz" = some v ∧ normTom v = .ok v' := by
      rcases htm with hf | ⟨t, hg, hst⟩
      · exact .inl (by rw [t3 _ (by decide), t2 _ (by decide) (by decide)]; exact hf)
      · obtain ⟨t', hok⟩ := normTom_isOk hst
        exact .inr ⟨t, t',
          by rw [t3 _ (by decide), t2 _ (by decide) (by decide)]; exact hg, hok⟩
    obtain ⟨fs4, h4⟩ := normSection_isOk defaultTomDeVoz hsec2
    have t4 : ∀ k, k ≠ "tomDeVoz" → getA fs4 k = getA fs3 k := (normSection_ok h4).1
    have htom4 : ∃ t4v, getA fs4 "tomDeVoz" = some t4v ∧ objOrArr t4v := by
      rcases (normSection_ok h4).2 with ⟨_, hval⟩ | ⟨w, w', _, _, hsub, hval⟩
      · exact ⟨defaultTomDeVoz, hval, .inl ⟨_, rfl⟩⟩
      · exact ⟨w', hval, (normTom_ok hsub).1⟩
    have hsec3 : truthyO (getA fs4 "experiencia") = false ∨
        ∃ v v', getA fs4 "experiencia" = some v ∧ normExp v = .ok v' := by
      rcases he with hf | ⟨e, hg, hse, _⟩
      · exact .inl (by
          rw [t4 _ (by decide), t3 _ (by decide), t2 _ (by decide) (by decide)]
          exact hf)
      · obtain ⟨e', hok⟩ := normExp_isOk hse
        exact .inr ⟨e, e', by
          rw [t4 _ (by decide), t3 _ (by decide), t2 _ (by decide) (by decide)]
          exact hg, hok⟩
    obtain ⟨fs5, h5⟩ := normSection_isOk defaultExperiencia hsec3
    have t5 : ∀ k, k ≠ "experiencia" → getA fs5 k = getA fs4 k := (normSection_ok h5).1
    have hexp5 : ∃ e5, getA fs5 "experiencia" = some e5 ∧ objOrArr e5 ∧
        ∃ c5, jsGet e5 "cta" = some c5 ∧ objOrArr c5 := by
      rcases (normSection_ok h5).2 with ⟨_, hval⟩ | ⟨w, w', hgw, htw, hsub, hval⟩
      · exact ⟨defaultExperiencia, hval, .inl ⟨_, rfl⟩, defaultCta, rfl, .inl ⟨_, rfl⟩⟩
      · have hchain : getA fs4 "experiencia" = getA (jsSpread x) "experiencia" := by
          rw [t4 _ (by decide), t3 _ (by decide), t2 _ (by decide) (by decide)]
        rw [hchain] at hgw
        rcases he with hf | ⟨e, hge, hse, hcase⟩
        · rw [hgw] at hf
          simp [truthyO, htw] at hf
        · rw [hge] at hgw
          injection hgw with hew
          subst hew
          obtain ⟨hs', _, _, _, _, hcta⟩ := normExp_ok hsub
          rcases hcta with ⟨htc, hveq⟩ | ⟨_, hveq⟩
          · rcases hcase with hnone | ⟨c, hgc, hcc⟩
            · rw [hnone] at htc
              simp [truthyO] at htc
            · rcases hcc with hcf | hcs
              · rw [hgc] at htc
                simp [truthyO, hcf] at htc
              · exact ⟨w', hval, hs', c, by rw [hveq]; exact hgc, hcs⟩
          · exact ⟨w', hval, hs', defaultCta, hveq, .inl ⟨_, rfl⟩⟩
    have hprio6 : ∀ pfs, getA (prioFloor fs5) "prioridadesTop3" = some (.obj pfs) →
        lengthGtThree (.obj pfs) = false := by
      intro pfs hg
      rcases prioFloor_cases fs5 with heq | hval
      · rw [heq, t5 _ (by decide), t4 _ (by decide), t3 _ (by decide),
          t2 _ (by decide) (by decide)] at hg
        exact hp pfs hg
      · rw [hval] at hg
        simp at hg
    obtain ⟨fs7, h7⟩ := prioCeil_isOk hprio6
    obtain ⟨t4v, htom4g, htom4s⟩ := htom4
    have htom8 : getA (pontFix fs7) "tomDeVoz" = some t4v := by
      rw [pontFix_other _ _ (by decide), prioCeil_other h7 _ (by decide),
        prioFloor_other _ _ (by decide), t5 _ (by decide), htom4g]
    obtain ⟨fs9, h9⟩ := fixNested_isOk "nota" htom8 htom4s
    obtain ⟨e5, hexp5g, hexp5s, c5, hc5g, hc5s⟩ := hexp5
    have hexp9 : getA fs9 "experiencia" = some e5 := by
      rw [fixNested_other h9 _ (by decide), pontFix_other _ _ (by decide),
        prioCeil_other h7 _ (by decide), prioFloor_other _ _ (by decide), hexp5g]
    obtain ⟨fs10, h10⟩ := fixNested_isOk "nota" hexp9 hexp5s
    have hcl : ∃ e10, getA fs10 "experiencia" = some e10 ∧
        ∃ c, jsGet e10 "cta" = some c ∧ objOrArr c := by
      rcases fixNested_ok h10 with ⟨_, rfl⟩ | ⟨_, sv, sv', hgsv, hset, rfl⟩
      · exact ⟨e5, hexp9, c5, hc5g, hc5s⟩
      · rw [hexp9] at hgsv
        injection hgsv with hsv
        subst hsv
        refine ⟨sv', getA_setA_same _ _ _, c5, ?_, hc5s⟩
        rw [jsGet_jsSet_other _ hset (by decide)]
        exact hc5g
    obtain ⟨e10, hge10, hc10⟩ := hcl
    obtain ⟨gs, h11⟩ := fixClareza_isOk hge10 hc10
    refine ⟨.obj gs, ?_⟩
    unfold normalizeV6Data
    rw [normCore_build h3 h4 h5 h7 h9 h10 h11]
    rfl

/-- Claim C10 witness: `tomDeVoz = 5` makes the normalizer throw and the
orchestrator emit the generic (code-less) error event, while an input
containing none of the guarded sections normalizes successfully. -/
theorem C10_section_type_errors_witness :
    normalizeV6Data (.obj [("tomDeVoz", .num 5)]) = .error () ∧
    (processAnalysis
        ⟨some (), some (), .content "x", .parsed (.obj [("tomDeVoz", .num 5)])⟩ =
        progressAction "configuracao" "Carregando configurações..." ++
        (progressAction "manual" "Carregando manual da marca..." ++
        (progressAction "prompt" "Preparando análise..." ++
        progressAction "api" "Analisando com IA..." ++
        (progressAction "processando" "Processando resultado..." ++
        sendErrorActions (genericAnalysisError typeErrorMessage)))) ∧
      (genericAnalysisError typeErrorMessage).code = none) ∧
    ∃ y, normalizeV6Data (.obj [("foo", .str "bar")]) = .ok y := by
  refine ⟨?_, ?_, ?_⟩
  · exact C10_section_type_errors.1 (.obj [("tomDeVoz", .num 5)]) (.num 5) "tomDeVoz"
      (.inr (.inl rfl)) rfl (by decide)
      (by rintro (⟨fs, h⟩ | ⟨xs, ps, h⟩) <;> cases h)
  · exact C10_section_type_errors.2.1 "x" (.obj [("tomDeVoz", .num 5)]) (.num 5)
      "tomDeVoz" (by decide) (.inr (.inl rfl)) rfl (by decide)
      (by rintro (⟨fs, h⟩ | ⟨xs, ps, h⟩) <;> cases h)
  · exact C10_section_type_errors.2.2 (.obj [("foo", .str "bar")])
      (.inl rfl) (.inl rfl) (.inl rfl) (by intro pfs h; cases h)
